import Mathlib

/-!
# Token metadata: decoding, merging and the resolution state machine

A shallow embedding of `cmd/metadata/token.go` and a verification of its
specification.

Conventions of the embedding.

* A Go `string` or `[]byte` is a list of bytes (`Bytes`), each byte a natural
  number below 256.  The conversion `string(b)` is the identity.
* A Go `map[string]V` is an association list read through `GoMap.lookup`
  (first match), so that all statements about maps are statements about
  lookups; iteration order, which Go leaves unspecified, never influences a
  lookup of the result.
* A method with a pointer receiver returns the receiver after the call together
  with the error, so that what an aborted call leaves behind is visible.
* A Go `int` is an integer in `-2^63 .. 2^63 - 1`; the result of an addition is
  brought back into that range by `goInt` (two's complement).
* A call that can panic ends in `Outcome.panicked` or `Exit.panicked`; the
  state it is given back with is the state at the panic.
* Functions of the Go standard library that the file calls on plain data
  (`hex.DecodeString`, `utf8.Valid`, `strconv.ParseUint`) are embedded from
  their documented behaviour.  The JSON codec, `helpers.Escape` and
  `url.ParseRequestURI` are dependencies passed as parameters (`Deps`); a codec
  for a fragment of JSON and a model of the URI validation instantiate them at
  concrete inputs.
* A call of the resolver or of the database is an effect: what it returns is an
  argument of the function that makes the call.
-/

set_option linter.dupNamespace false

namespace MetadataIndexer

/-- A Go `string` / `[]byte`: a sequence of bytes. -/
abbrev Bytes := List Nat

/-- The ASCII bytes of a literal, used to write inputs readably. -/
def ascii (s : String) : Bytes := s.data.map Char.toNat

/-- The `error` values that can travel through the code of this file. -/
inductive GoError where
  /-- an error of `json.Unmarshal` / `json.Marshal` -/
  | jsonError
  /-- `strconv.ErrSyntax` wrapped in a `*strconv.NumError` -/
  | strconvErrSyntax
  /-- `strconv.ErrRange` wrapped in a `*strconv.NumError` -/
  | strconvErrRange
  /-- `hex.InvalidByteError(b)` -/
  | hexInvalidByteError (b : Nat)
  /-- `hex.ErrLength` -/
  | hexErrLength
  /-- an error of `url.ParseRequestURI` (a `*url.Error`) -/
  | urlError
  deriving DecidableEq, Repr

deriving instance DecidableEq for Except

/-- How a call ends that returns a value and an error: with the value, with the
error, or in a panic. -/
inductive Outcome (α : Type) where
  | ok (a : α)
  | error (err : GoError)
  | panicked
  deriving DecidableEq, Repr

/-- How a call ends that returns an error only: it returns (`none` for `nil`), or it
panics. -/
inductive Exit where
  | returned (err : Option GoError)
  | panicked
  deriving DecidableEq, Repr

/-- The value a Go `int` holds after an arithmetic result `x`: `x` modulo `2^64`, in the
range `-2^63 .. 2^63 - 1`. -/
def goInt (x : Int) : Int := (x + 2 ^ 63) % 2 ^ 64 - 2 ^ 63

/-! ## Standard library: `encoding/hex` -/

/-- The table `reverseHexTable` of `encoding/hex`: the value of a hexadecimal
digit (either case), `none` where the table holds `0xff`. -/
def fromHexChar (c : Nat) : Option Nat :=
  if 48 ≤ c ∧ c ≤ 57 then some (c - 48)
  else if 97 ≤ c ∧ c ≤ 102 then some (c - 97 + 10)
  else if 65 ≤ c ∧ c ≤ 70 then some (c - 65 + 10)
  else none

/-- The function `hex.DecodeString`: pairs of hexadecimal digits become bytes; the first
byte that is no digit gives `InvalidByteError`, an odd length `ErrLength`. -/
def DecodeString : Bytes → Except GoError Bytes
  | [] => .ok []
  | [p] =>
    match fromHexChar p with
    | none => .error (.hexInvalidByteError p)
    | some _ => .error .hexErrLength
  | p :: q :: rest =>
    match fromHexChar p with
    | none => .error (.hexInvalidByteError p)
    | some a =>
      match fromHexChar q with
      | none => .error (.hexInvalidByteError q)
      | some b =>
        match DecodeString rest with
        | .error e => .error e
        | .ok bs => .ok ((a * 16 + b) :: bs)

/-! ## Standard library: `unicode/utf8` -/

/-- A continuation byte `0x80..0xBF`. -/
def isCont (b : Nat) : Bool := decide (128 ≤ b ∧ b ≤ 191)

/-- The function `utf8.Valid`: the bytes are a sequence of well-formed UTF-8 encodings
(no overlong forms, no surrogates, nothing above U+10FFFF). -/
def Valid : Bytes → Bool
  | [] => true
  | b0 :: rest =>
    if b0 < 128 then Valid rest
    else if 194 ≤ b0 ∧ b0 ≤ 223 then
      match rest with
      | b1 :: r => isCont b1 && Valid r
      | _ => false
    else if 224 ≤ b0 ∧ b0 ≤ 239 then
      match rest with
      | b1 :: b2 :: r =>
        decide ((if b0 = 224 then 160 else 128) ≤ b1 ∧ b1 ≤ (if b0 = 237 then 159 else 191))
          && isCont b2 && Valid r
      | _ => false
    else if 240 ≤ b0 ∧ b0 ≤ 244 then
      match rest with
      | b1 :: b2 :: b3 :: r =>
        decide ((if b0 = 240 then 144 else 128) ≤ b1 ∧ b1 ≤ (if b0 = 244 then 143 else 191))
          && isCont b2 && isCont b3 && Valid r
      | _ => false
    else false

/-! ## Standard library: `strconv` -/

/-- The constant `maxUint64`. -/
def maxUint64 : Nat := 18446744073709551615

/-- The loop of `strconv.ParseUint` for base 10 and bit size 64, `n` the value
accumulated so far.  The cutoff is `maxUint64/10 + 1`; the sum `n*10 + d` is
computed in 64 bits and an overflow is detected by `n1 < n`. -/
def parseUintLoop (n : Nat) : Bytes → Except GoError Nat
  | [] => .ok n
  | c :: cs =>
    if 48 ≤ c ∧ c ≤ 57 then
      let d := c - 48
      if n ≥ maxUint64 / 10 + 1 then .error .strconvErrRange
      else
        let n10 := n * 10
        let n1 := (n10 + d) % 2 ^ 64
        if n1 < n10 ∨ n1 > maxUint64 then .error .strconvErrRange
        else parseUintLoop n1 cs
    else .error .strconvErrSyntax

/-- The call `strconv.ParseUint(s, 10, 64)`. -/
def ParseUint (s : Bytes) : Except GoError Nat :=
  if s = [] then .error .strconvErrSyntax else parseUintLoop 0 s

/-! ## Go maps -/

/-- A Go `map[string]V`. -/
abbrev GoMap (V : Type) := List (Bytes × V)

namespace GoMap

variable {V : Type}

/-- The read `v, ok := m[k]`. -/
def lookup : GoMap V → Bytes → Option V
  | [], _ => none
  | (k', v) :: t, k => if k' = k then some v else lookup t k

/-- The statement `delete(m, k)`. -/
def delete (m : GoMap V) (k : Bytes) : GoMap V :=
  m.filter (fun e => decide (e.1 ≠ k))

/-- Byte-wise lexicographic order of Go strings (`a < b`). -/
def keyLt : Bytes → Bytes → Bool
  | _, [] => false
  | [], _ :: _ => true
  | a :: as, b :: bs => decide (a < b) || (decide (a = b) && keyLt as bs)

/-- The assignment `m[k] = v`: the entry of `k` is replaced where it stands; a new
key is placed before the first greater key, which keeps a map built by
assignments in the key order `json.Marshal` writes. -/
def set : GoMap V → Bytes → V → GoMap V
  | [], k, v => [(k, v)]
  | (k', v') :: t, k, v =>
    if k' = k then (k, v) :: t
    else if keyLt k k' then (k, v) :: (k', v') :: t
    else (k', v') :: set t k v

end GoMap

/-! ## The decoder -/

/-- The struct `TokenInfo`. -/
structure TokenInfo where
  TokenID : Nat := 0
  TokenInfo : GoMap Bytes := []
  Link : Bytes := []
  deriving DecidableEq, Repr

/-- The struct `tokenMetadataBigMap`. -/
structure tokenMetadataBigMap where
  TokenID : Bytes := []
  TokenInfo : GoMap Bytes := []
  deriving DecidableEq, Repr

/-- One step of the loop of `decodeMap`: `m[key]` becomes the decoded text when
`value` is hexadecimal and the decoded bytes are valid UTF-8. -/
def decodeEntry (m : GoMap Bytes) (e : Bytes × Bytes) : GoMap Bytes :=
  match DecodeString e.2 with
  | .ok b => if Valid b then m.set e.1 b else m
  | .error _ => m

/-- The function `decodeMap`: `for key, value := range m`, over the entries the map had when
the loop started. -/
def decodeMap (m : GoMap Bytes) : GoMap Bytes :=
  m.foldl decodeEntry m

/-- The method `(*TokenInfo).UnmarshalJSON`.  `unmarshalBigMap` is
`json.Unmarshal(data, &ti)` for `ti` a `tokenMetadataBigMap`.  The result is the
receiver after the call and the returned error (`none` for `nil`). -/
def TokenInfo.UnmarshalJSON (unmarshalBigMap : Bytes → Except GoError tokenMetadataBigMap)
    (tokenInfo : MetadataIndexer.TokenInfo) (data : Bytes) :
    MetadataIndexer.TokenInfo × Option GoError :=
  match unmarshalBigMap data with
  | .error err => (tokenInfo, some err)
  | .ok ti =>
    match ParseUint ti.TokenID with
    | .error err => (tokenInfo, some err)
    | .ok tokenID =>
      let tokenInfo := { tokenInfo with TokenID := tokenID, TokenInfo := ti.TokenInfo }
      match tokenInfo.TokenInfo.lookup [] with
      | some link =>
        match DecodeString link with
        | .error err => (tokenInfo, some err)
        | .ok b =>
          let tokenInfo := if Valid b then { tokenInfo with Link := b } else tokenInfo
          let tokenInfo := { tokenInfo with TokenInfo := tokenInfo.TokenInfo.delete [] }
          ({ tokenInfo with TokenInfo := decodeMap tokenInfo.TokenInfo }, none)
      | none => ({ tokenInfo with TokenInfo := decodeMap tokenInfo.TokenInfo }, none)


/-! ## Collaborators -/

/-- The dependencies of the file that are not data-level standard functions: the
JSON codec (`jsoniter`, configured compatible with `encoding/json`), the
storage escaping and the URI validation.  `V` is the type of the values a
`map[string]interface{}` holds.

* `unmarshalBigMap data` is `json.Unmarshal(data, &ti)` for a zero
  `tokenMetadataBigMap`;
* `marshalStringMap m` is `json.Marshal(m)` for a `map[string]string`;
* `unmarshalMap data` is `json.Unmarshal(data, &m)` for a map made empty by
  `make(map[string]interface{})`: `.ok (some m)` for a document that is a JSON
  object with the entries `m`, `.ok none` for the document `null`, which is
  accepted and leaves the map `nil`, and an error for every other document;
* `marshalMap m` is `json.Marshal(m)` for a `map[string]interface{}`, `none`
  being the `nil` map;
* `Escape` is `helpers.Escape`;
* `ParseRequestURI s` is the error of `url.ParseRequestURI(s)`. -/
structure Deps (V : Type) where
  unmarshalBigMap : Bytes → Except GoError tokenMetadataBigMap
  marshalStringMap : GoMap Bytes → Except GoError Bytes
  unmarshalMap : Bytes → Except GoError (Option (GoMap V))
  marshalMap : Option (GoMap V) → Except GoError Bytes
  Escape : Bytes → Bytes
  ParseRequestURI : Bytes → Option GoError

/-- Modelled from the spec: the type `models.Status`, whose declaration is in package
`models`; the spec names its values `New`, `Applied` and `Failed`. -/
inductive models.Status where
  | StatusNew
  | StatusApplied
  | StatusFailed
  deriving DecidableEq, Repr

/-- Modelled from the spec: the record `models.TokenMetadata`, whose declaration is in
package `models`; the fields are those of the spec's data model, with the names
the file uses.  `RetryCount` is a Go `int`, a value in `-2^63 .. 2^63 - 1`;
`UpdateID` holds the values of the update-id counter. -/
structure models.TokenMetadata where
  Network : Bytes := []
  Contract : Bytes := []
  TokenID : Nat := 0
  Status : models.Status := .StatusNew
  Metadata : Bytes := []
  Link : Bytes := []
  RetryCount : Int := 0
  UpdateID : Int := 0
  deriving DecidableEq, Repr

/-- Modelled from the spec: the Update-ID Counter (`helpers.Counter`), whose code is in
package `helpers`: a counter whose `increment()` returns the next value. -/
structure helpers.Counter where
  value : Int := 0
  deriving DecidableEq, Repr

/-- Modelled from the spec: `increment() -> nextValue` of the Update-ID Counter: the
counter advances by one and the new value is returned. -/
def helpers.Counter.Increment (c : helpers.Counter) : helpers.Counter × Int :=
  ({ value := c.value + 1 }, c.value + 1)

/-- Modelled from the spec: an error returned by the resolver (package `resolver`), as far
as the file observes it: its text, whether `errors.Is` matches each of the two
retryable sentinels, and the error kind when the value is a
`resolver.ResolvingError`. -/
structure resolver.Error where
  Error : Bytes := []
  isErrNoIPFSResponse : Bool := false
  isErrTezosStorageKeyNotFound : Bool := false
  ResolvingError : Option Nat := none
  deriving DecidableEq, Repr

/-- The fields of `api.BigMapUpdate` that the file reads. -/
structure api.BigMapUpdate where
  /-- the field `update.Contract.Address` -/
  ContractAddress : Bytes := []
  /-- the field `update.Content.Value`, `none` when `update.Content` is `nil` -/
  ContentValue : Option Bytes := none
  deriving DecidableEq, Repr

/-- What the file emits to the logger and to the metrics. -/
inductive Event where
  /-- a log entry with fields contract, token_id and link -/
  | log (level str contract : Bytes) (tokenID : Nat) (link : Bytes)
  /-- the call `indexer.incrementCounter(kind, status)` -/
  | counter (kind : Bytes) (status : models.Status)
  /-- the call `indexer.incrementErrorCounter(e)` -/
  | errorCounter (kind : Nat)
  deriving DecidableEq, Repr

/-- A value in the field map handed to `db.UpdateTokenMetadata`. -/
inductive FieldValue where
  | status (s : models.Status)
  | bytes (b : Bytes)
  | int (i : Int)
  deriving DecidableEq, Repr

/-- The state of the `Indexer` that the file reads or changes.
`MaxRetryCountOnError` is the value of
`int(indexer.settings.MaxRetryCountOnError)`; `events` are the log entries and
metric increments emitted so far and `dbUpdates` the calls of
`db.UpdateTokenMetadata` made so far, oldest first. -/
structure Indexer where
  network : Bytes := []
  MaxRetryCountOnError : Int := 0
  tokenActionsCounter : helpers.Counter := {}
  events : List Event := []
  dbUpdates : List (models.TokenMetadata × GoMap FieldValue) := []
  deriving DecidableEq, Repr

/-- The method `indexer.incrementCounter`. -/
def Indexer.incrementCounter (indexer : Indexer) (kind : Bytes) (status : models.Status) :
    Indexer :=
  { indexer with events := indexer.events ++ [.counter kind status] }

/-- The method `indexer.incrementErrorCounter`. -/
def Indexer.incrementErrorCounter (indexer : Indexer) (kind : Nat) : Indexer :=
  { indexer with events := indexer.events ++ [.errorCounter kind] }

/-! ## The functions of `token.go` -/

/-- The method `(*Indexer).processTokenMetadata`.  The call
`json.Unmarshal(update.Content.Value, &tokenInfo)` on the zero `tokenInfo` runs
`TokenInfo.UnmarshalJSON`.  The result is the indexer after the call and the
returned pair: an error, or the record (`none` for a `nil` record). -/
def Indexer.processTokenMetadata {V : Type} (deps : Deps V) (indexer : Indexer)
    (update : api.BigMapUpdate) : Indexer × Except GoError (Option models.TokenMetadata) :=
  match update.ContentValue with
  | none => (indexer, .ok none)
  | some value =>
    match TokenInfo.UnmarshalJSON deps.unmarshalBigMap {} value with
    | (_, some err) => (indexer, .error err)
    | (tokenInfo, none) =>
      match deps.marshalStringMap tokenInfo.TokenInfo with
      | .error err => (indexer, .error err)
      | .ok metadata =>
        let (counter, updateID) := indexer.tokenActionsCounter.Increment
        let indexer := { indexer with tokenActionsCounter := counter }
        let token : models.TokenMetadata :=
          { Network := indexer.network
            Contract := update.ContractAddress
            TokenID := tokenInfo.TokenID
            Status := .StatusNew
            Metadata := deps.Escape metadata
            UpdateID := updateID }
        let token :=
          match deps.ParseRequestURI tokenInfo.Link with
          | some _ => { token with Status := .StatusApplied }
          | none => { token with Link := tokenInfo.Link }
        (indexer.incrementCounter (ascii "token") token.Status, .ok (some token))

/-- The method `(*Indexer).logTokenMetadata`. -/
def Indexer.logTokenMetadata (indexer : Indexer) (tm : models.TokenMetadata)
    (str level : Bytes) : Indexer :=
  if level = ascii "info" ∨ level = ascii "warn" ∨ level = ascii "error" then
    { indexer with events := indexer.events ++ [.log level str tm.Contract tm.TokenID tm.Link] }
  else indexer

/-- One step of the loop of `mergeTokenMetadata`: `srcMap[key] = value` unless
`srcMap` has the key. -/
def mergeEntry {V : Type} (srcMap : GoMap V) (e : Bytes × V) : GoMap V :=
  match srcMap.lookup e.1 with
  | some _ => srcMap
  | none => srcMap.set e.1 e.2

/-- The loop of `mergeTokenMetadata`: `for key, value := range gotMap`. -/
def mergeMaps {V : Type} (srcMap gotMap : GoMap V) : GoMap V :=
  gotMap.foldl mergeEntry srcMap

/-- The loop of `mergeTokenMetadata` on a `srcMap` that may be `nil`, over the entries of
`gotMap`.  A read of the `nil` map finds no key, and the assignment
`srcMap[key] = value` to the `nil` map panics (`none`); without an entry to
visit the `nil` map is left as it is. -/
def mergeNilMaps {V : Type} : Option (GoMap V) → GoMap V → Option (Option (GoMap V))
  | srcMap, [] => some srcMap
  | none, _ :: _ => none
  | some srcMap, e :: rest => mergeNilMaps (some (mergeEntry srcMap e)) rest

/-- The function `mergeTokenMetadata`.  A `nil` `gotMap` has no entries to range over. -/
def mergeTokenMetadata {V : Type} (deps : Deps V) (src got : Bytes) : Outcome Bytes :=
  if src.length = 0 then .ok got
  else if got.length = 0 then .ok src
  else
    match deps.unmarshalMap src with
    | .error err => .error err
    | .ok srcMap =>
      match deps.unmarshalMap got with
      | .error err => .error err
      | .ok gotMap =>
        match mergeNilMaps srcMap (gotMap.getD []) with
        | none => .panicked
        | some srcMap =>
          match deps.marshalMap srcMap with
          | .error err => .error err
          | .ok out => .ok out

/-- The method `(*Indexer).resolveTokenMetadata`.  `resolved` is what the call
`indexer.resolver.Resolve(ctx, tm.Network, tm.Contract, tm.Link)` returns.  The
result is the indexer and the record after the call and how the call ended: the
returned error, or the panic of `mergeTokenMetadata`, which happens before
anything is written to the record. -/
def Indexer.resolveTokenMetadata {V : Type} (deps : Deps V) (indexer : Indexer)
    (resolved : Except resolver.Error Bytes) (tm : models.TokenMetadata) :
    Indexer × models.TokenMetadata × Exit :=
  let indexer := indexer.logTokenMetadata tm (ascii "Trying to resolve") (ascii "info")
  let branch : Outcome (Indexer × models.TokenMetadata) :=
    match resolved with
    | .error err =>
      let (indexer, tm) :=
        if err.isErrNoIPFSResponse || err.isErrTezosStorageKeyNotFound then
          let tm := { tm with RetryCount := goInt (tm.RetryCount + 1) }
          if tm.RetryCount < indexer.MaxRetryCountOnError then
            (indexer.logTokenMetadata tm (ascii "Retry: " ++ err.Error) (ascii "warn"), tm)
          else
            let tm := { tm with Status := .StatusFailed }
            (indexer.logTokenMetadata tm (ascii "Failed") (ascii "warn"), tm)
        else
          let tm := { tm with Status := .StatusFailed }
          (indexer.logTokenMetadata tm (ascii "Failed") (ascii "warn"), tm)
      match err.ResolvingError with
      | some e => .ok (indexer.incrementErrorCounter e, tm)
      | none => .ok (indexer, tm)
    | .ok data =>
      match mergeTokenMetadata deps tm.Metadata data with
      | .panicked => .panicked
      | .error err => .error err
      | .ok metadata =>
        if Valid metadata then
          .ok (indexer, { tm with Metadata := deps.Escape metadata, Status := .StatusApplied })
        else
          .ok (indexer, { tm with Status := .StatusFailed })
  match branch with
  | .panicked => (indexer, tm, .panicked)
  | .error err => (indexer, tm, .returned (some err))
  | .ok (indexer, tm) =>
    let indexer := indexer.incrementCounter (ascii "token") tm.Status
    let (counter, updateID) := indexer.tokenActionsCounter.Increment
    ({ indexer with tokenActionsCounter := counter }, { tm with UpdateID := updateID },
      .returned none)

/-- The method `(*Indexer).tokenWorker`.  `dbErr` is what `indexer.db.UpdateTokenMetadata`
returns; the call itself is recorded in `dbUpdates`.  The deadline of the
resolver call is part of `resolved`.  A panic of `resolveTokenMetadata` passes
through. -/
def Indexer.tokenWorker {V : Type} (deps : Deps V) (indexer : Indexer)
    (resolved : Except resolver.Error Bytes) (dbErr : Option GoError)
    (token : models.TokenMetadata) : Indexer × Exit :=
  match indexer.resolveTokenMetadata deps resolved token with
  | (indexer, _, .panicked) => (indexer, .panicked)
  | (indexer, _, .returned (some err)) => (indexer, .returned (some err))
  | (indexer, token, .returned none) =>
    ({ indexer with
        dbUpdates := indexer.dbUpdates ++
          [(token,
            [(ascii "status", .status token.Status),
             (ascii "metadata", .bytes token.Metadata),
             (ascii "retry_count", .int token.RetryCount),
             (ascii "update_id", .int token.UpdateID)])] },
      .returned dbErr)

/-! ## A JSON codec for concrete documents

The statements below hold for every codec.  To evaluate the functions on
concrete documents the dependencies are instantiated with a codec for a
fragment of JSON on which it agrees with `encoding/json`: objects, arrays,
strings of ASCII characters (with the escapes `\"`, `\\`, `\/`, `\b`, `\f`,
`\n`, `\r`, `\t` and `\u00XX` below `0x80`), integers of at most 15 digits
without fraction or exponent (`-0` excluded), `true`, `false`, `null`, and white
space between tokens.  A document outside the fragment (other numbers,
non-ASCII text, a `null` inside `token_info`) is reported as an error by this
codec.
-/

/-- A value of type `interface{}` as `json.Unmarshal` produces it. -/
inductive JSON where
  | null
  | bool (b : Bool)
  | number (n : Int)
  | string (s : Bytes)
  | array (a : List JSON)
  | object (m : List (Bytes × JSON))
  deriving Repr

namespace JSON

/-- Drops leading white space (space, tab, line feed, carriage return). -/
def skipSpace : Bytes → Bytes
  | [] => []
  | c :: cs => if c = 32 ∨ c = 9 ∨ c = 10 ∨ c = 13 then skipSpace cs else c :: cs

/-- The byte denoted by the escape `\c` for a one-letter escape. -/
def unescape (c : Nat) : Option Nat :=
  if c = 34 ∨ c = 92 ∨ c = 47 then some c
  else if c = 98 then some 8
  else if c = 102 then some 12
  else if c = 110 then some 10
  else if c = 114 then some 13
  else if c = 116 then some 9
  else none

/-- Reads a string after its opening quote: the text and the input after the
closing quote. -/
def readString : Nat → Bytes → Option (Bytes × Bytes)
  | 0, _ => none
  | _ + 1, [] => none
  | fuel + 1, c :: rest =>
    if c = 34 then some ([], rest)
    else if c = 92 then
      match rest with
      | [] => none
      | e :: rest1 =>
        if e = 117 then
          match rest1 with
          | h1 :: h2 :: h3 :: h4 :: rest2 =>
            match fromHexChar h1, fromHexChar h2, fromHexChar h3, fromHexChar h4 with
            | some 0, some 0, some x, some y =>
              if x < 8 then
                (readString fuel rest2).map (fun r => ((x * 16 + y) :: r.1, r.2))
              else none
            | _, _, _, _ => none
          | _ => none
        else
          match unescape e with
          | some b => (readString fuel rest1).map (fun r => (b :: r.1, r.2))
          | none => none
    else if c < 32 ∨ 128 ≤ c then none
    else (readString fuel rest).map (fun r => (c :: r.1, r.2))

/-- Reads a run of decimal digits: their value, their number, and the rest. -/
def readDigits : Nat → Nat → Bytes → Nat × Nat × Bytes
  | acc, n, [] => (acc, n, [])
  | acc, n, c :: cs =>
    if 48 ≤ c ∧ c ≤ 57 then readDigits (acc * 10 + (c - 48)) (n + 1) cs else (acc, n, c :: cs)

/-- Reads an integer literal of the fragment whose digits start at the input. -/
def readNumber (negative : Bool) (s : Bytes) : Option (JSON × Bytes) :=
  match readDigits 0 0 s with
  | (v, n, rest) =>
    if n = 0 ∨ 15 < n then none
    else if s.head? = some 48 ∧ (1 < n ∨ negative = true) then none
    else if rest.head? = some 46 ∨ rest.head? = some 101 ∨ rest.head? = some 69 then none
    else some (.number (if negative then -(v : Int) else (v : Int)), rest)

/-- Removes an expected literal from the front of the input. -/
def expect : Bytes → Bytes → Option Bytes
  | [], s => some s
  | _ :: _, [] => none
  | l :: ls, c :: cs => if l = c then expect ls cs else none

mutual

/-- Reads one JSON value (leading white space allowed). -/
def parseValue : Nat → Bytes → Option (JSON × Bytes)
  | 0, _ => none
  | fuel + 1, s =>
    match skipSpace s with
    | [] => none
    | c :: rest =>
      if c = 123 then
        match skipSpace rest with
        | 125 :: rest1 => some (.object [], rest1)
        | rest1 => parseMembers fuel [] rest1
      else if c = 91 then
        match skipSpace rest with
        | 93 :: rest1 => some (.array [], rest1)
        | rest1 => parseElements fuel [] rest1
      else if c = 34 then (readString (rest.length + 1) rest).map (fun r => (.string r.1, r.2))
      else if c = 116 then (expect [114, 117, 101] rest).map (fun r => (.bool true, r))
      else if c = 102 then (expect [97, 108, 115, 101] rest).map (fun r => (.bool false, r))
      else if c = 110 then (expect [117, 108, 108] rest).map (fun r => (.null, r))
      else if c = 45 then readNumber true rest
      else readNumber false (c :: rest)

/-- Reads the members of an object up to its closing brace; `acc` holds the
members read so far, a repeated key replacing the earlier one. -/
def parseMembers : Nat → GoMap JSON → Bytes → Option (JSON × Bytes)
  | 0, _, _ => none
  | fuel + 1, acc, s =>
    match s with
    | 34 :: rest =>
      match readString (rest.length + 1) rest with
      | none => none
      | some (key, rest1) =>
        match skipSpace rest1 with
        | 58 :: rest2 =>
          match parseValue fuel rest2 with
          | none => none
          | some (v, rest3) =>
            match skipSpace rest3 with
            | 44 :: rest4 => parseMembers fuel (acc.set key v) (skipSpace rest4)
            | 125 :: rest4 => some (.object (acc.set key v), rest4)
            | _ => none
        | _ => none
    | _ => none

/-- Reads the elements of an array up to its closing bracket. -/
def parseElements : Nat → List JSON → Bytes → Option (JSON × Bytes)
  | 0, _, _ => none
  | fuel + 1, acc, s =>
    match parseValue fuel s with
    | none => none
    | some (v, rest) =>
      match skipSpace rest with
      | 44 :: rest1 => parseElements fuel (acc ++ [v]) rest1
      | 93 :: rest1 => some (.array (acc ++ [v]), rest1)
      | _ => none

end

/-- Parses a whole document: one value and nothing but white space after it. -/
def parse (data : Bytes) : Option JSON :=
  match parseValue (2 * data.length + 2) data with
  | some (v, rest) => if skipSpace rest = [] then some v else none
  | none => none

/-- A lower-case hexadecimal digit. -/
def hexDigit (n : Nat) : Nat := if n < 10 then 48 + n else 87 + n

/-- The encoding of one byte of a string, as `json.Marshal` writes it (HTML
characters escaped). -/
def renderChar (c : Nat) : Bytes :=
  if c = 34 then [92, 34]
  else if c = 92 then [92, 92]
  else if c = 10 then [92, 110]
  else if c = 13 then [92, 114]
  else if c = 9 then [92, 116]
  else if c < 32 ∨ c = 60 ∨ c = 62 ∨ c = 38 then [92, 117, 48, 48, hexDigit (c / 16), hexDigit (c % 16)]
  else [c]

/-- The encoding of a string. -/
def renderString (s : Bytes) : Bytes := [34] ++ s.flatMap renderChar ++ [34]

/-- The decimal digits of a natural number, `fuel` bounding their number. -/
def renderNat : Nat → Nat → Bytes
  | 0, _ => []
  | fuel + 1, n => if n < 10 then [48 + n] else renderNat fuel (n / 10) ++ [48 + n % 10]

/-- The encoding of an integer of the fragment. -/
def renderInt (n : Int) : Bytes :=
  if n < 0 then 45 :: renderNat 20 n.natAbs else renderNat 20 n.natAbs

mutual

/-- The encoding of a value. -/
def render : JSON → Bytes
  | .null => [110, 117, 108, 108]
  | .bool true => [116, 114, 117, 101]
  | .bool false => [102, 97, 108, 115, 101]
  | .number n => renderInt n
  | .string s => renderString s
  | .array a => [91] ++ renderElements a ++ [93]
  | .object m => [123] ++ renderMembers m ++ [125]

/-- The encoding of the elements of an array, separated by commas. -/
def renderElements : List JSON → Bytes
  | [] => []
  | [v] => render v
  | v :: w :: t => render v ++ [44] ++ renderElements (w :: t)

/-- The encoding of the members of an object, separated by commas. -/
def renderMembers : List (Bytes × JSON) → Bytes
  | [] => []
  | [(k, v)] => renderString k ++ [58] ++ render v
  | (k, v) :: e :: t => renderString k ++ [58] ++ render v ++ [44] ++ renderMembers (e :: t)

end

/-- The text of a value that is a string. -/
def asString : JSON → Option Bytes
  | .string s => some s
  | _ => none

/-- A map of strings out of the members of an object, when all values are strings. -/
def asStringMap : List (Bytes × JSON) → Option (GoMap Bytes)
  | [] => some []
  | (k, v) :: t =>
    match asString v, asStringMap t with
    | some s, some m => some ((k, s) :: m)
    | _, _ => none

end JSON

/-- The call `json.Unmarshal(data, &m)` on the fragment, for `m` a `map[string]interface{}`:
an object gives its entries, the document `null` is accepted and leaves the
map `nil`, every other document is an error. -/
def jsonUnmarshalMap (data : Bytes) : Except GoError (Option (GoMap JSON)) :=
  match JSON.parse data with
  | some (.object m) => .ok (some m)
  | some .null => .ok none
  | _ => .error .jsonError

/-- The call `json.Marshal(m)` on the fragment, for `m` a `map[string]interface{}` built by
assignments (whose entries are in key order); the `nil` map is written `null`. -/
def jsonMarshalMap (m : Option (GoMap JSON)) : Except GoError Bytes :=
  match m with
  | some entries => .ok (JSON.render (.object entries))
  | none => .ok (JSON.render .null)

/-- The call `json.Unmarshal(data, &ti)` on the fragment, for `ti` a zero
`tokenMetadataBigMap`: the members `token_id` (a string) and `token_info` (an
object of strings) are read, a missing or `null` member leaves the zero value,
other members are ignored, and the document `null` leaves the zero struct. -/
def jsonUnmarshalBigMap (data : Bytes) : Except GoError tokenMetadataBigMap :=
  match JSON.parse data with
  | some (.object m) =>
    let tokenID : Option Bytes :=
      match GoMap.lookup m (ascii "token_id") with
      | none => some []
      | some .null => some []
      | some (.string s) => some s
      | some _ => none
    let tokenInfo : Option (GoMap Bytes) :=
      match GoMap.lookup m (ascii "token_info") with
      | none => some []
      | some .null => some []
      | some (.object o) => JSON.asStringMap o
      | some _ => none
    match tokenID, tokenInfo with
    | some i, some o => .ok { TokenID := i, TokenInfo := o }
    | _, _ => .error .jsonError
  | some .null => .ok {}
  | _ => .error .jsonError

/-- The call `json.Marshal(m)` on the fragment, for `m` a `map[string]string`. -/
def jsonMarshalStringMap (m : GoMap Bytes) : Except GoError Bytes :=
  .ok (JSON.render (.object (m.map (fun e => (e.1, JSON.string e.2)))))

/-- The dependencies with the JSON codec of the fragment; the escaping and the
URI validation stay parameters. -/
def jsonDeps (Escape : Bytes → Bytes) (ParseRequestURI : Bytes → Option GoError) : Deps JSON :=
  { unmarshalBigMap := jsonUnmarshalBigMap
    marshalStringMap := jsonMarshalStringMap
    unmarshalMap := jsonUnmarshalMap
    marshalMap := jsonMarshalMap
    Escape := Escape
    ParseRequestURI := ParseRequestURI }

/-! ## A model of `url.ParseRequestURI` for concrete links

The statements below hold for every URI validation.  To evaluate
`processTokenMetadata` on concrete links the dependency is instantiated with
the checks `url.ParseRequestURI` makes (`parse` with `viaRequest`), in the order
it makes them.  An authority that holds `@`, `[` or `%` (user information, an
IP literal, an escaped host) is outside the model and is reported as an error.
-/

namespace url

/-- The function `stringContainsCTLByte`: a byte below `0x20` or the byte `0x7f`. -/
def stringContainsCTLByte (s : Bytes) : Bool := s.any (fun b => decide (b < 32 ∨ b = 127))

/-- The loop of `getScheme`; `seen` is `rawURL[:i]` and the last argument
`rawURL[i:]`.  The result is the scheme and the rest, `none` for the error
"missing protocol scheme". -/
def getSchemeLoop (rawURL : Bytes) : Bytes → Bytes → Option (Bytes × Bytes)
  | _, [] => some ([], rawURL)
  | seen, c :: cs =>
    if (97 ≤ c ∧ c ≤ 122) ∨ (65 ≤ c ∧ c ≤ 90) then getSchemeLoop rawURL (seen ++ [c]) cs
    else if (48 ≤ c ∧ c ≤ 57) ∨ c = 43 ∨ c = 45 ∨ c = 46 then
      if seen = [] then some ([], rawURL) else getSchemeLoop rawURL (seen ++ [c]) cs
    else if c = 58 then
      if seen = [] then none else some (seen, cs)
    else some ([], rawURL)

/-- The function `getScheme`. -/
def getScheme (rawURL : Bytes) : Option (Bytes × Bytes) := getSchemeLoop rawURL [] rawURL

/-- The function `ishex`. -/
def ishex (c : Nat) : Bool := (fromHexChar c).isSome

/-- The check `unescape` makes in every mode: each `%` is followed by two
hexadecimal digits. -/
def validEscapes : Bytes → Bool
  | [] => true
  | c :: cs =>
    if c = 37 then
      match cs with
      | h1 :: h2 :: _ => ishex h1 && ishex h2 && validEscapes cs
      | _ => false
    else validEscapes cs

/-- The function `validOptionalPort`: empty, or a colon followed by decimal digits. -/
def validOptionalPort : Bytes → Bool
  | [] => true
  | c :: cs => decide (c = 58) && cs.all (fun b => decide (48 ≤ b ∧ b ≤ 57))

/-- The part of a host from its last colon on, empty when it has no colon. -/
def colonPort (host : Bytes) : Bytes :=
  if 58 ∈ host then 58 :: (host.reverse.takeWhile (fun b => decide (b ≠ 58))).reverse else []

/-- The bytes `unescape` accepts unescaped in a host: those for which
`shouldEscape(c, encodeHost)` is false, and every byte from `0x80` on. -/
def hostByte (c : Nat) : Bool :=
  decide (128 ≤ c) || decide ((97 ≤ c ∧ c ≤ 122) ∨ (65 ≤ c ∧ c ≤ 90) ∨ (48 ≤ c ∧ c ≤ 57)) ||
    [33, 36, 38, 39, 40, 41, 42, 43, 44, 59, 61, 58, 91, 93, 60, 62, 34, 45, 95, 46, 126].contains c

/-- The function `parseAuthority` on an authority without user information, IP literal and
escapes: the port is checked, then the bytes of the host. -/
def validAuthority (authority : Bytes) : Bool :=
  !(authority.any (fun b => decide (b = 64 ∨ b = 91 ∨ b = 37))) &&
    validOptionalPort (colonPort authority) && authority.all hostByte

/-- The function `url.ParseRequestURI`, as the error it returns. -/
def ParseRequestURI (rawURL : Bytes) : Option GoError :=
  if stringContainsCTLByte rawURL = true then some .urlError
  else if rawURL = [] then some .urlError
  else if rawURL = [42] then none
  else
    match getScheme rawURL with
    | none => some .urlError
    | some (scheme, rest0) =>
      let rest := rest0.takeWhile (fun b => decide (b ≠ 63))
      if rest.head? ≠ some 47 then
        if scheme ≠ [] then none else some .urlError
      else if scheme ≠ [] ∧ (rest.drop 1).head? = some 47 then
        let authority := (rest.drop 2).takeWhile (fun b => decide (b ≠ 47))
        let path := (rest.drop 2).dropWhile (fun b => decide (b ≠ 47))
        if validAuthority authority = true ∧ validEscapes path = true then none
        else some .urlError
      else if validEscapes rest = true then none
      else some .urlError

end url

/-! ## Specification-level notions -/

/-- The keys of a Go map are distinct; an association list that represents a map
holds every key once. -/
def GoMap.WF {V : Type} (m : GoMap V) : Prop := (m.map Prod.fst).Nodup

instance {V : Type} (m : GoMap V) : Decidable (GoMap.WF m) := by
  unfold GoMap.WF; infer_instance

/-- The decoded text of a value: defined when the value is a hexadecimal encoding
of valid UTF-8 bytes. -/
def decodedText (value : Bytes) : Option Bytes :=
  match DecodeString value with
  | .ok b => if Valid b then some b else none
  | .error _ => none

/-- A non-empty string of decimal digits. -/
def isDecimal (s : Bytes) : Bool := !s.isEmpty && s.all (fun c => decide (48 ≤ c ∧ c ≤ 57))

/-- The number a string of decimal digits denotes. -/
def decimalValue (s : Bytes) : Nat := s.foldl (fun n c => n * 10 + (c - 48)) 0

/-- The record a resolver error leaves before the update id is stamped. -/
def afterError (max : Int) (err : resolver.Error) (tm : models.TokenMetadata) :
    models.TokenMetadata :=
  if err.isErrNoIPFSResponse = true ∨ err.isErrTezosStorageKeyNotFound = true then
    if goInt (tm.RetryCount + 1) < max then { tm with RetryCount := goInt (tm.RetryCount + 1) }
    else { tm with RetryCount := goInt (tm.RetryCount + 1), Status := .StatusFailed }
  else { tm with Status := .StatusFailed }

/-- A run of resolution attempts on one record: `resolveTokenMetadata` is called once
for each resolver outcome of the list, on the record the call before left (an
attempt that panics leaves the record as it was). -/
def runAttempts {V : Type} (deps : Deps V) :
    Indexer → models.TokenMetadata → List (Except resolver.Error Bytes) →
      Indexer × models.TokenMetadata
  | indexer, tm, [] => (indexer, tm)
  | indexer, tm, resolved :: rest =>
    runAttempts deps (indexer.resolveTokenMetadata deps resolved tm).1
      (indexer.resolveTokenMetadata deps resolved tm).2.1 rest

/-- A run of resolution attempts in which no attempt is made on a record whose status is
`Failed`: once the status is `Failed` the record is left alone. -/
def runAttemptsUnlessFailed {V : Type} (deps : Deps V) :
    Indexer → models.TokenMetadata → List (Except resolver.Error Bytes) →
      Indexer × models.TokenMetadata
  | indexer, tm, [] => (indexer, tm)
  | indexer, tm, resolved :: rest =>
    if tm.Status = .StatusFailed then (indexer, tm)
    else
      runAttemptsUnlessFailed deps (indexer.resolveTokenMetadata deps resolved tm).1
        (indexer.resolveTokenMetadata deps resolved tm).2.1 rest

/-! ## Concrete inputs -/

/-- The payload `{"token_id":"1","token_info":{"":"6162","n":"546f6b656e31","s":"zz"}}`:
a link that decodes to `ab`, a value that decodes to `Token1` and a value that
is no hexadecimal text. -/
def payloadGood : Bytes :=
  ascii "\x7b\"token_id\":\"1\",\"token_info\":\x7b\"\":\"6162\",\"n\":\"546f6b656e31\",\"s\":\"zz\"\x7d\x7d"

/-- The decoded form of `payloadGood`. -/
def bigMapGood : tokenMetadataBigMap :=
  { TokenID := ascii "1"
    TokenInfo := [([], ascii "6162"), (ascii "n", ascii "546f6b656e31"), (ascii "s", ascii "zz")] }

/-- The payload `{"token_id":"x","token_info":{"":"6162"}}`: a valid link under a token id
that is no number. -/
def payloadBadID : Bytes :=
  ascii "\x7b\"token_id\":\"x\",\"token_info\":\x7b\"\":\"6162\"\x7d\x7d"

/-- The payload `{"token_id":"1","token_info":{"":"zz"}}`: a link that is no hexadecimal
text. -/
def payloadBadLink : Bytes :=
  ascii "\x7b\"token_id\":\"1\",\"token_info\":\x7b\"\":\"zz\"\x7d\x7d"

/-- The document `{"a":"x"}`. -/
def docA : Bytes := ascii "\x7b\"a\":\"x\"\x7d"

/-- The document `{"b":"y","a":"z"}`. -/
def docB : Bytes := ascii "\x7b\"b\":\"y\",\"a\":\"z\"\x7d"

/-- The document `{"a":"x","b":"y"}`. -/
def docAB : Bytes := ascii "\x7b\"a\":\"x\",\"b\":\"y\"\x7d"

/-- The text `x`, which is no JSON document. -/
def docMalformed : Bytes := ascii "x"

/-- The document `null`. -/
def docNull : Bytes := ascii "null"

/-- The payload of the end-to-end scenario as the specification writes it,
`{"1": {"": "6874...6e", "name": "546f6b656e31"}}`: one member, named by the
token id. -/
def payloadKeyedByID : Bytes :=
  ascii "\x7b\"1\": \x7b\"\": \"68747470733a2f2f6578616d706c652e636f6d2f312e6a736f6e\", \"name\": \"546f6b656e31\"\x7d\x7d"

/-- The same token in the members the decoder reads,
`{"token_id":"1","token_info":{"":"6874...6e","name":"546f6b656e31"}}`. -/
def payloadScenario : Bytes :=
  ascii "\x7b\"token_id\":\"1\",\"token_info\":\x7b\"\":\"68747470733a2f2f6578616d706c652e636f6d2f312e6a736f6e\",\"name\":\"546f6b656e31\"\x7d\x7d"

/-- The text `https://example.com/1.json`. -/
def linkScenario : Bytes := ascii "https://example.com/1.json"

/-! ## Lemmas on maps -/

theorem GoMap.lookup_set {V : Type} (m : GoMap V) (k k' : Bytes) (v : V) :
    GoMap.lookup (GoMap.set m k v) k' = if k = k' then some v else GoMap.lookup m k' := by
  induction m with
  | nil => simp [GoMap.set, GoMap.lookup]
  | cons e t ih =>
    obtain ⟨k0, v0⟩ := e
    simp only [GoMap.set]
    split_ifs with h1 h2 h3 h4 h5
    all_goals simp_all [GoMap.lookup]

theorem GoMap.lookup_delete {V : Type} (m : GoMap V) (k k' : Bytes) :
    GoMap.lookup (GoMap.delete m k) k' = if k' = k then none else GoMap.lookup m k' := by
  induction m with
  | nil => simp [GoMap.delete, GoMap.lookup]
  | cons e t ih =>
    obtain ⟨k0, v0⟩ := e
    simp only [GoMap.delete] at ih ⊢
    by_cases h0 : k0 = k
    · subst h0
      rw [List.filter_cons_of_neg (by simp), ih]
      by_cases h1 : k' = k0
      · simp [h1]
      · have h2 : ¬ k0 = k' := fun h => h1 h.symm
        simp [GoMap.lookup, h1, h2]
    · rw [List.filter_cons_of_pos (by simpa using h0)]
      simp only [GoMap.lookup, ih]
      by_cases h1 : k' = k
      · subst h1
        simp [h0]
      · simp [h1]

theorem GoMap.lookup_eq_none_of_not_mem {V : Type} (m : GoMap V) (k : Bytes)
    (h : k ∉ m.map Prod.fst) : GoMap.lookup m k = none := by
  induction m with
  | nil => rfl
  | cons e t ih =>
    obtain ⟨k0, v0⟩ := e
    simp only [List.map_cons, List.mem_cons, not_or] at h
    simp only [GoMap.lookup]
    rw [if_neg (fun h' => h.1 h'.symm)]
    exact ih h.2

theorem GoMap.not_mem_keys_delete {V : Type} (m : GoMap V) (k : Bytes) :
    k ∉ (GoMap.delete m k).map Prod.fst := by
  simp [GoMap.delete, List.mem_map, List.mem_filter]

theorem GoMap.WF_delete {V : Type} (m : GoMap V) (k : Bytes) (h : GoMap.WF m) :
    GoMap.WF (GoMap.delete m k) := by
  unfold GoMap.WF GoMap.delete at *
  exact (List.Nodup.sublist (List.Sublist.map _ (List.filter_sublist m)) h)

/-! ## Lemmas on `decodeMap` -/

theorem decodeEntry_eq (m : GoMap Bytes) (e : Bytes × Bytes) :
    decodeEntry m e =
      match decodedText e.2 with
      | some b => m.set e.1 b
      | none => m := by
  unfold decodeEntry decodedText
  cases DecodeString e.2 with
  | error err => rfl
  | ok b => by_cases hv : Valid b = true <;> simp [hv]

theorem lookup_foldl_decodeEntry_of_not_mem (l acc : GoMap Bytes) (k : Bytes)
    (h : k ∉ l.map Prod.fst) :
    GoMap.lookup (l.foldl decodeEntry acc) k = GoMap.lookup acc k := by
  induction l generalizing acc with
  | nil => rfl
  | cons e t ih =>
    simp only [List.map_cons, List.mem_cons, not_or] at h
    rw [List.foldl_cons, ih _ h.2, decodeEntry_eq]
    cases decodedText e.2 with
    | none => rfl
    | some b =>
      simp only [GoMap.lookup_set]
      rw [if_neg (fun h' => h.1 h'.symm)]

theorem lookup_foldl_decodeEntry (l acc : GoMap Bytes) (hl : GoMap.WF l) (k : Bytes) :
    GoMap.lookup (l.foldl decodeEntry acc) k =
      match (GoMap.lookup l k).bind decodedText with
      | some b => some b
      | none => GoMap.lookup acc k := by
  induction l generalizing acc with
  | nil => rfl
  | cons e t ih =>
    obtain ⟨k0, v0⟩ := e
    have hwf : k0 ∉ t.map Prod.fst ∧ GoMap.WF t := by
      simpa [GoMap.WF] using hl
    rw [List.foldl_cons]
    by_cases hk : k0 = k
    · subst hk
      rw [lookup_foldl_decodeEntry_of_not_mem _ _ _ hwf.1, decodeEntry_eq]
      simp only [GoMap.lookup, if_true, Option.some_bind]
      cases decodedText v0 with
      | none => rfl
      | some b => simp [GoMap.lookup_set]
    · rw [ih _ hwf.2, decodeEntry_eq]
      simp only [GoMap.lookup, if_neg hk]
      cases decodedText v0 with
      | none => rfl
      | some b => simp only [GoMap.lookup_set, if_neg hk]

theorem lookup_decodeMap (m : GoMap Bytes) (hm : GoMap.WF m) (k : Bytes) :
    GoMap.lookup (decodeMap m) k =
      (GoMap.lookup m k).map (fun v => (decodedText v).getD v) := by
  unfold decodeMap
  rw [lookup_foldl_decodeEntry m m hm k]
  cases h : GoMap.lookup m k with
  | none => simp [h]
  | some v => cases h2 : decodedText v <;> simp [h, h2]

/-! ## Lemmas on `TokenInfo.UnmarshalJSON` -/

theorem UnmarshalJSON_eq_of_no_link (u : Bytes → Except GoError tokenMetadataBigMap)
    (tokenInfo : TokenInfo) (data : Bytes) (ti : tokenMetadataBigMap) (n : Nat)
    (hdata : u data = .ok ti) (hid : ParseUint ti.TokenID = .ok n)
    (hlink : GoMap.lookup ti.TokenInfo [] = none) :
    TokenInfo.UnmarshalJSON u tokenInfo data =
      ({ tokenInfo with TokenID := n, TokenInfo := decodeMap ti.TokenInfo }, none) := by
  simp [TokenInfo.UnmarshalJSON, hdata, hid, hlink]

theorem UnmarshalJSON_eq_of_bad_link (u : Bytes → Except GoError tokenMetadataBigMap)
    (tokenInfo : TokenInfo) (data : Bytes) (ti : tokenMetadataBigMap) (n : Nat)
    (link : Bytes) (err : GoError)
    (hdata : u data = .ok ti) (hid : ParseUint ti.TokenID = .ok n)
    (hlink : GoMap.lookup ti.TokenInfo [] = some link) (hhex : DecodeString link = .error err) :
    TokenInfo.UnmarshalJSON u tokenInfo data =
      ({ tokenInfo with TokenID := n, TokenInfo := ti.TokenInfo }, some err) := by
  simp [TokenInfo.UnmarshalJSON, hdata, hid, hlink, hhex]

theorem UnmarshalJSON_eq_of_link (u : Bytes → Except GoError tokenMetadataBigMap)
    (tokenInfo : TokenInfo) (data : Bytes) (ti : tokenMetadataBigMap) (n : Nat)
    (link b : Bytes)
    (hdata : u data = .ok ti) (hid : ParseUint ti.TokenID = .ok n)
    (hlink : GoMap.lookup ti.TokenInfo [] = some link) (hhex : DecodeString link = .ok b) :
    TokenInfo.UnmarshalJSON u tokenInfo data =
      ({ TokenID := n
         TokenInfo := decodeMap (GoMap.delete ti.TokenInfo [])
         Link := if Valid b = true then b else tokenInfo.Link }, none) := by
  by_cases hv : Valid b = true <;>
    simp [TokenInfo.UnmarshalJSON, hdata, hid, hlink, hhex, hv]

theorem UnmarshalJSON_eq_of_bad_id (u : Bytes → Except GoError tokenMetadataBigMap)
    (tokenInfo : TokenInfo) (data : Bytes) (ti : tokenMetadataBigMap) (err : GoError)
    (hdata : u data = .ok ti) (hid : ParseUint ti.TokenID = .error err) :
    TokenInfo.UnmarshalJSON u tokenInfo data = (tokenInfo, some err) := by
  simp [TokenInfo.UnmarshalJSON, hdata, hid]

/-! ## Lemmas on `ParseUint` -/

theorem foldl_digits_ge (s : Bytes) (n : Nat) :
    n ≤ s.foldl (fun a c => a * 10 + (c - 48)) n := by
  induction s generalizing n with
  | nil => exact Nat.le_refl n
  | cons c cs ih =>
    rw [List.foldl_cons]
    exact Nat.le_trans (by omega) (ih (n * 10 + (c - 48)))

theorem parseUintLoop_ok_iff (s : Bytes) (n r : Nat) (hn : n ≤ maxUint64) :
    parseUintLoop n s = .ok r ↔
      (∀ c ∈ s, 48 ≤ c ∧ c ≤ 57) ∧
        s.foldl (fun a c => a * 10 + (c - 48)) n = r ∧ r ≤ maxUint64 := by
  induction s generalizing n with
  | nil =>
    simp only [parseUintLoop, Except.ok.injEq, List.not_mem_nil, false_implies, implies_true,
      List.foldl_nil, true_and]
    constructor
    · intro h; subst h; exact ⟨rfl, hn⟩
    · intro h; exact h.1
  | cons c cs ih =>
    have hge := foldl_digits_ge cs (n * 10 + (c - 48))
    have hpow : (2 : Nat) ^ 64 = 18446744073709551616 := by norm_num
    simp only [parseUintLoop, maxUint64, hpow, List.foldl_cons, List.mem_cons, forall_eq_or_imp] at *
    by_cases hc : 48 ≤ c ∧ c ≤ 57
    · rw [if_pos hc]
      by_cases hcut : n ≥ 18446744073709551615 / 10 + 1
      · rw [if_pos hcut]
        simp only [reduceCtorEq, false_iff, not_and, not_le]
        intro _ hr
        subst hr
        omega
      · rw [if_neg hcut]
        by_cases hov : n * 10 + (c - 48) ≤ 18446744073709551615
        · have hmod : (n * 10 + (c - 48)) % 18446744073709551616 = n * 10 + (c - 48) :=
            Nat.mod_eq_of_lt (by omega)
          rw [hmod, if_neg (by omega), ih _ hov]
          simp [hc]
        · rw [if_pos (by omega)]
          simp only [reduceCtorEq, false_iff, not_and, not_le]
          intro _ hr
          subst hr
          omega
    · rw [if_neg hc]
      simp only [reduceCtorEq, false_iff, not_and]
      intro h
      exact absurd h.1 hc

theorem ParseUint_ok_iff (s : Bytes) (r : Nat) :
    ParseUint s = .ok r ↔ isDecimal s = true ∧ decimalValue s = r ∧ r ≤ maxUint64 := by
  unfold ParseUint isDecimal decimalValue
  by_cases hs : s = []
  · subst hs
    simp
  · rw [if_neg hs, parseUintLoop_ok_iff s 0 r (Nat.zero_le _)]
    simp [hs, List.all_eq_true]

theorem ParseUint_error_iff (s : Bytes) :
    (∃ err, ParseUint s = .error err) ↔ ¬ (isDecimal s = true ∧ decimalValue s ≤ maxUint64) := by
  constructor
  · rintro ⟨err, he⟩ ⟨h1, h2⟩
    have := (ParseUint_ok_iff s (decimalValue s)).2 ⟨h1, rfl, h2⟩
    rw [he] at this
    cases this
  · intro h
    cases hp : ParseUint s with
    | error err => exact ⟨err, rfl⟩
    | ok r =>
      have := (ParseUint_ok_iff s r).1 hp
      exact absurd ⟨this.1, this.2.1 ▸ this.2.2⟩ h

/-! ## Lemmas on `mergeTokenMetadata` -/

theorem lookup_mergeMaps {V : Type} (a b : GoMap V) (k : Bytes) :
    GoMap.lookup (mergeMaps a b) k =
      match GoMap.lookup a k with
      | some v => some v
      | none => GoMap.lookup b k := by
  unfold mergeMaps
  induction b generalizing a with
  | nil => cases h : GoMap.lookup a k <;> simp [GoMap.lookup, h]
  | cons e t ih =>
    obtain ⟨k0, v0⟩ := e
    rw [List.foldl_cons, ih]
    unfold mergeEntry
    cases h0 : GoMap.lookup a k0 with
    | some w =>
      cases hk : GoMap.lookup a k with
      | some v => rfl
      | none =>
        have hne : ¬ k0 = k := by
          intro h; subst h; rw [h0] at hk; cases hk
        simp [GoMap.lookup, hne]
    | none =>
      simp only [GoMap.lookup_set]
      by_cases hk : k0 = k
      · subst hk
        simp [GoMap.lookup, h0]
      · simp [GoMap.lookup, hk]

theorem lookup_isSome_of_mem {V : Type} (m : GoMap V) (e : Bytes × V) (h : e ∈ m) :
    ∃ v, GoMap.lookup m e.1 = some v := by
  induction m with
  | nil => cases h
  | cons e0 t ih =>
    obtain ⟨k0, v0⟩ := e0
    by_cases hk : k0 = e.1
    · exact ⟨v0, by simp [GoMap.lookup, hk]⟩
    · rcases List.mem_cons.1 h with h1 | h1
      · subst h1; exact absurd rfl hk
      · obtain ⟨v, hv⟩ := ih h1
        exact ⟨v, by simp [GoMap.lookup, hk, hv]⟩

theorem mergeNilMaps_some {V : Type} (m l : GoMap V) :
    mergeNilMaps (some m) l = some (some (mergeMaps m l)) := by
  unfold mergeMaps
  induction l generalizing m with
  | nil => rfl
  | cons e t ih =>
    rw [mergeNilMaps, List.foldl_cons]
    exact ih _

theorem mergeNilMaps_none_nil {V : Type} :
    mergeNilMaps (none : Option (GoMap V)) [] = some none := rfl

theorem mergeNilMaps_none_cons {V : Type} (e : Bytes × V) (l : GoMap V) :
    mergeNilMaps none (e :: l) = none := rfl

theorem mergeTokenMetadata_both {V : Type} (deps : Deps V) (src got : Bytes)
    (hs : src ≠ []) (hg : got ≠ []) :
    mergeTokenMetadata deps src got =
      match deps.unmarshalMap src with
      | .error err => .error err
      | .ok srcMap =>
        match deps.unmarshalMap got with
        | .error err => .error err
        | .ok gotMap =>
          match mergeNilMaps srcMap (gotMap.getD []) with
          | none => .panicked
          | some srcMap =>
            match deps.marshalMap srcMap with
            | .error err => .error err
            | .ok out => .ok out := by
  unfold mergeTokenMetadata
  rw [if_neg (by simpa using hs), if_neg (by simpa using hg)]

theorem mergeTokenMetadata_objects {V : Type} (deps : Deps V) (src got : Bytes)
    (srcMap gotMap : GoMap V) (out : Bytes) (hsrc : src ≠ []) (hgot : got ≠ [])
    (hs : deps.unmarshalMap src = .ok (some srcMap))
    (hg : deps.unmarshalMap got = .ok (some gotMap))
    (hout : deps.marshalMap (some (mergeMaps srcMap gotMap)) = .ok out) :
    mergeTokenMetadata deps src got = .ok out := by
  rw [mergeTokenMetadata_both deps src got hsrc hgot, hs, hg]
  simp only [Option.getD_some, mergeNilMaps_some, hout]

theorem mergeTokenMetadata_src_empty {V : Type} (deps : Deps V) (got : Bytes) :
    mergeTokenMetadata deps [] got = .ok got := by
  simp [mergeTokenMetadata]

theorem mergeTokenMetadata_got_empty {V : Type} (deps : Deps V) (src : Bytes) :
    mergeTokenMetadata deps src [] = .ok src := by
  unfold mergeTokenMetadata
  by_cases h : src.length = 0
  · rw [if_pos h]
    rw [List.length_eq_zero.1 h]
  · rw [if_neg h]
    rfl

/-! ## The codec of the fragment reads back what it writes -/

theorem JSON.renderNat_digit (fuel k : Nat) :
    ∃ c tl, JSON.renderNat (fuel + 1) k = c :: tl ∧ 48 ≤ c ∧ c ≤ 57 := by
  induction fuel generalizing k with
  | zero =>
    by_cases h10 : k < 10
    · exact ⟨48 + k, [], by simp [JSON.renderNat, h10], by omega, by omega⟩
    · exact ⟨48 + k % 10, [], by simp [JSON.renderNat, h10], by omega, by omega⟩
  | succ f ih =>
    unfold JSON.renderNat
    by_cases h10 : k < 10
    · rw [if_pos h10]
      exact ⟨48 + k, [], rfl, by omega, by omega⟩
    · rw [if_neg h10]
      obtain ⟨c, tl, hc, h1, h2⟩ := ih (k / 10)
      exact ⟨c, tl ++ [48 + k % 10], by rw [hc]; rfl, h1, h2⟩

theorem JSON.render_head (v : JSON) :
    ∃ c tl, JSON.render v = c :: tl ∧ c ≠ 32 ∧ c ≠ 9 ∧ c ≠ 10 ∧ c ≠ 13 ∧ c ≠ 93 ∧ c ≠ 125 := by
  cases v with
  | null => exact ⟨110, _, rfl, by decide, by decide, by decide, by decide, by decide, by decide⟩
  | bool b =>
    cases b
    · exact ⟨102, _, rfl, by decide, by decide, by decide, by decide, by decide, by decide⟩
    · exact ⟨116, _, rfl, by decide, by decide, by decide, by decide, by decide, by decide⟩
  | number n =>
    obtain ⟨c, tl, hc, h1, h2⟩ := JSON.renderNat_digit 19 n.natAbs
    by_cases hn : n < 0
    · exact ⟨45, JSON.renderNat 20 n.natAbs, by simp [JSON.render, JSON.renderInt, hn],
        by decide, by decide, by decide, by decide, by decide, by decide⟩
    · exact ⟨c, tl, by simp [JSON.render, JSON.renderInt, hn, hc],
        by omega, by omega, by omega, by omega, by omega, by omega⟩
  | string s =>
    exact ⟨34, _, by simp [JSON.render, JSON.renderString]; rfl,
      by decide, by decide, by decide, by decide, by decide, by decide⟩
  | array a =>
    exact ⟨91, _, by simp [JSON.render]; rfl,
      by decide, by decide, by decide, by decide, by decide, by decide⟩
  | object m =>
    exact ⟨123, _, by simp [JSON.render]; rfl,
      by decide, by decide, by decide, by decide, by decide, by decide⟩

theorem JSON.skipSpace_cons (c : Nat) (tl : Bytes)
    (hc : c ≠ 32 ∧ c ≠ 9 ∧ c ≠ 10 ∧ c ≠ 13) : JSON.skipSpace (c :: tl) = c :: tl := by
  simp [JSON.skipSpace, hc]

theorem JSON.skipSpace_render (v : JSON) (rest : Bytes) :
    JSON.skipSpace (JSON.render v ++ rest) = JSON.render v ++ rest := by
  obtain ⟨c, tl, hc, h1, h2, h3, h4, -⟩ := JSON.render_head v
  rw [hc]
  exact JSON.skipSpace_cons c _ ⟨h1, h2, h3, h4⟩

theorem decodedText_eq_some (value b : Bytes) :
    decodedText value = some b ↔ DecodeString value = .ok b ∧ Valid b = true := by
  unfold decodedText
  cases h : DecodeString value with
  | error err => simp
  | ok b0 =>
    by_cases hv : Valid b0 = true
    · simp only [hv, if_true, Option.some.injEq, Except.ok.injEq]
      constructor
      · intro h1; subst h1; exact ⟨rfl, hv⟩
      · intro h1; exact h1.1
    · simp only [hv, Bool.false_eq_true, if_false, reduceCtorEq, Except.ok.injEq, false_iff,
        not_and]
      intro h1; subst h1; exact hv

theorem not_mem_keys_of_lookup_none {V : Type} (m : GoMap V) (k : Bytes)
    (h : GoMap.lookup m k = none) : k ∉ m.map Prod.fst := by
  intro hmem
  obtain ⟨e, he, hk⟩ := List.mem_map.1 hmem
  obtain ⟨v, hv⟩ := lookup_isSome_of_mem m e he
  rw [hk, h] at hv
  cases hv

theorem UnmarshalJSON_success_iff (u : Bytes → Except GoError tokenMetadataBigMap)
    (tokenInfo : TokenInfo) (data : Bytes) (ti : tokenMetadataBigMap)
    (hdata : u data = .ok ti) :
    (TokenInfo.UnmarshalJSON u tokenInfo data).2 = none ↔
      ((∃ n, ParseUint ti.TokenID = .ok n) ∧
        ∀ link, GoMap.lookup ti.TokenInfo [] = some link → ∃ b, DecodeString link = .ok b) := by
  cases hid : ParseUint ti.TokenID with
  | error err => simp [UnmarshalJSON_eq_of_bad_id u tokenInfo data ti err hdata hid]
  | ok n =>
    cases hlink : GoMap.lookup ti.TokenInfo [] with
    | none => simp [UnmarshalJSON_eq_of_no_link u tokenInfo data ti n hdata hid hlink]
    | some link =>
      cases hhex : DecodeString link with
      | error err =>
        simp [UnmarshalJSON_eq_of_bad_link u tokenInfo data ti n link err hdata hid hlink hhex, hhex]
      | ok b =>
        simp [UnmarshalJSON_eq_of_link u tokenInfo data ti n link b hdata hid hlink hhex, hhex]

theorem UnmarshalJSON_lookup (u : Bytes → Except GoError tokenMetadataBigMap)
    (tokenInfo : TokenInfo) (data : Bytes) (ti : tokenMetadataBigMap)
    (hdata : u data = .ok ti) (hwf : GoMap.WF ti.TokenInfo)
    (hok : (TokenInfo.UnmarshalJSON u tokenInfo data).2 = none) (key : Bytes) :
    GoMap.lookup (TokenInfo.UnmarshalJSON u tokenInfo data).1.TokenInfo key =
      if key = [] then none
      else (GoMap.lookup ti.TokenInfo key).map (fun v => (decodedText v).getD v) := by
  cases hid : ParseUint ti.TokenID with
  | error err =>
    rw [UnmarshalJSON_eq_of_bad_id u tokenInfo data ti err hdata hid] at hok
    cases hok
  | ok n =>
    cases hlink : GoMap.lookup ti.TokenInfo [] with
    | none =>
      rw [UnmarshalJSON_eq_of_no_link u tokenInfo data ti n hdata hid hlink]
      simp only [lookup_decodeMap _ hwf]
      by_cases hk : key = []
      · subst hk; simp [hlink]
      · simp [hk]
    | some link =>
      cases hhex : DecodeString link with
      | error err =>
        rw [UnmarshalJSON_eq_of_bad_link u tokenInfo data ti n link err hdata hid hlink hhex] at hok
        cases hok
      | ok b =>
        rw [UnmarshalJSON_eq_of_link u tokenInfo data ti n link b hdata hid hlink hhex]
        simp only [lookup_decodeMap _ (GoMap.WF_delete _ _ hwf), GoMap.lookup_delete]
        by_cases hk : key = []
        · simp [hk]
        · simp [hk]

theorem payloadGood_decodes : jsonUnmarshalBigMap payloadGood = .ok bigMapGood := by decide

theorem payloadBadID_decodes :
    jsonUnmarshalBigMap payloadBadID =
      .ok { TokenID := ascii "x", TokenInfo := [([], ascii "6162")] } := by decide

theorem payloadBadLink_decodes :
    jsonUnmarshalBigMap payloadBadLink =
      .ok { TokenID := ascii "1", TokenInfo := [([], ascii "zz")] } := by decide

/-! ## The decoder (claims C1 to C4) -/

/-- C1: for a payload whose mapping is a Go map, `TokenInfo.UnmarshalJSON` returns no error
exactly when the token id parses and the link, if present, is hexadecimal text,
so that no other value can cause an error; and when it returns no error the
output mapping has exactly the input keys other than the empty string, a value
that is a hexadecimal encoding of valid UTF-8 bytes is replaced by the decoded
text, and every other value is kept unchanged. -/
theorem unmarshalJSON_metadata_values
    (unmarshalBigMap : Bytes → Except GoError tokenMetadataBigMap)
    (tokenInfo : TokenInfo) (data : Bytes) (ti : tokenMetadataBigMap)
    (hdata : unmarshalBigMap data = .ok ti) (hwf : GoMap.WF ti.TokenInfo) :
    ((TokenInfo.UnmarshalJSON unmarshalBigMap tokenInfo data).2 = none ↔
      ((∃ n, ParseUint ti.TokenID = .ok n) ∧
        ∀ link, GoMap.lookup ti.TokenInfo [] = some link → ∃ b, DecodeString link = .ok b)) ∧
    ((TokenInfo.UnmarshalJSON unmarshalBigMap tokenInfo data).2 = none →
      (∀ key,
        (∃ v, GoMap.lookup (TokenInfo.UnmarshalJSON unmarshalBigMap tokenInfo data).1.TokenInfo
            key = some v) ↔
          key ≠ [] ∧ ∃ v, GoMap.lookup ti.TokenInfo key = some v) ∧
      (∀ key value, key ≠ [] → GoMap.lookup ti.TokenInfo key = some value →
        (∀ b, DecodeString value = .ok b → Valid b = true →
          GoMap.lookup (TokenInfo.UnmarshalJSON unmarshalBigMap tokenInfo data).1.TokenInfo
            key = some b) ∧
        ((∀ b, DecodeString value = .ok b → Valid b = false) →
          GoMap.lookup (TokenInfo.UnmarshalJSON unmarshalBigMap tokenInfo data).1.TokenInfo
            key = some value))) := by
  refine ⟨UnmarshalJSON_success_iff unmarshalBigMap tokenInfo data ti hdata, fun hok => ⟨?_, ?_⟩⟩
  · intro key
    rw [UnmarshalJSON_lookup unmarshalBigMap tokenInfo data ti hdata hwf hok key]
    by_cases hk : key = []
    · simp [hk]
    · cases hl : GoMap.lookup ti.TokenInfo key <;> simp [hk]
  · intro key value hk hv
    rw [UnmarshalJSON_lookup unmarshalBigMap tokenInfo data ti hdata hwf hok key]
    rw [if_neg hk, hv, Option.map_some']
    constructor
    · intro b hb hvalid
      rw [(decodedText_eq_some value b).2 ⟨hb, hvalid⟩]
      rfl
    · intro hnone
      cases hd : decodedText value with
      | none => rfl
      | some b =>
        have h := (decodedText_eq_some value b).1 hd
        rw [hnone b h.1] at h
        exact absurd h.2 (by decide)

/-- C1, at the payload `payloadGood`: decoding succeeds, the key `n` holds the decoded
text `Token1` and the key `s`, whose value `zz` is no hexadecimal text, keeps
its value. -/
theorem unmarshalJSON_metadata_values_witness :
    (TokenInfo.UnmarshalJSON jsonUnmarshalBigMap {} payloadGood).2 = none ∧
      GoMap.lookup (TokenInfo.UnmarshalJSON jsonUnmarshalBigMap {} payloadGood).1.TokenInfo
        (ascii "n") = some (ascii "Token1") ∧
      GoMap.lookup (TokenInfo.UnmarshalJSON jsonUnmarshalBigMap {} payloadGood).1.TokenInfo
        (ascii "s") = some (ascii "zz") := by
  have h := unmarshalJSON_metadata_values jsonUnmarshalBigMap {} payloadGood bigMapGood
    payloadGood_decodes (by decide)
  have hok : (TokenInfo.UnmarshalJSON jsonUnmarshalBigMap {} payloadGood).2 = none :=
    h.1.2 ⟨⟨1, by decide⟩, fun link hl => ⟨ascii "ab", by
      have hl2 : link = ascii "6162" := by
        have : GoMap.lookup bigMapGood.TokenInfo [] = some (ascii "6162") := by decide
        rw [this] at hl
        exact (Option.some.inj hl).symm
      rw [hl2]
      decide⟩⟩
  refine ⟨hok, ?_, ?_⟩
  · exact ((h.2 hok).2 (ascii "n") (ascii "546f6b656e31") (by decide) (by decide)).1
      (ascii "Token1") (by decide) (by decide)
  · refine ((h.2 hok).2 (ascii "s") (ascii "zz") (by decide) (by decide)).2 ?_
    intro b hb
    have hz : DecodeString (ascii "zz") = .error (.hexInvalidByteError 122) := by decide
    rw [hz] at hb
    cases hb

/-- C2: when the token-id key is not a non-empty string of decimal digits with a value of
at most `2^64 - 1`, `TokenInfo.UnmarshalJSON` returns an error and
`processTokenMetadata` returns an error (and so no record); when it is such a
string with value `n` and the link, if present, is hexadecimal text,
`TokenInfo.UnmarshalJSON` returns no error and sets `TokenID` to `n`. -/
theorem unmarshalJSON_token_id {V : Type} (deps : Deps V) (indexer : Indexer)
    (update : api.BigMapUpdate) (tokenInfo : TokenInfo) (data : Bytes)
    (ti : tokenMetadataBigMap)
    (hcontent : update.ContentValue = some data)
    (hdata : deps.unmarshalBigMap data = .ok ti) :
    (¬ (isDecimal ti.TokenID = true ∧ decimalValue ti.TokenID ≤ 2 ^ 64 - 1) →
      (∃ err, (TokenInfo.UnmarshalJSON deps.unmarshalBigMap tokenInfo data).2 = some err) ∧
      (∃ err, (indexer.processTokenMetadata deps update).2 = .error err)) ∧
    (isDecimal ti.TokenID = true → decimalValue ti.TokenID ≤ 2 ^ 64 - 1 →
      (∀ link, GoMap.lookup ti.TokenInfo [] = some link → ∃ b, DecodeString link = .ok b) →
      (TokenInfo.UnmarshalJSON deps.unmarshalBigMap tokenInfo data).2 = none ∧
      (TokenInfo.UnmarshalJSON deps.unmarshalBigMap tokenInfo data).1.TokenID =
        decimalValue ti.TokenID) := by
  have hmax : (2 : Nat) ^ 64 - 1 = maxUint64 := by norm_num [maxUint64]
  rw [hmax]
  constructor
  · intro hbad
    obtain ⟨err, herr⟩ := (ParseUint_error_iff ti.TokenID).2 hbad
    refine ⟨⟨err, ?_⟩, ⟨err, ?_⟩⟩
    · rw [UnmarshalJSON_eq_of_bad_id deps.unmarshalBigMap tokenInfo data ti err hdata herr]
    · unfold Indexer.processTokenMetadata
      simp only [hcontent]
      rw [UnmarshalJSON_eq_of_bad_id deps.unmarshalBigMap {} data ti err hdata herr]
  · intro hdec hle hlink
    have hid : ParseUint ti.TokenID = .ok (decimalValue ti.TokenID) :=
      (ParseUint_ok_iff ti.TokenID _).2 ⟨hdec, rfl, hle⟩
    refine ⟨(UnmarshalJSON_success_iff deps.unmarshalBigMap tokenInfo data ti hdata).2
      ⟨⟨_, hid⟩, hlink⟩, ?_⟩
    cases hl : GoMap.lookup ti.TokenInfo [] with
    | none => rw [UnmarshalJSON_eq_of_no_link deps.unmarshalBigMap tokenInfo data ti _ hdata hid hl]
    | some link =>
      obtain ⟨b, hb⟩ := hlink link hl
      rw [UnmarshalJSON_eq_of_link deps.unmarshalBigMap tokenInfo data ti _ link b hdata hid hl hb]

/-- C2, at two payloads: under the token id `x` both the decoder and `processTokenMetadata`
return an error; under the token id `1` decoding succeeds with `TokenID = 1`. -/
theorem unmarshalJSON_token_id_witness :
    ((∃ err, (TokenInfo.UnmarshalJSON jsonUnmarshalBigMap {} payloadBadID).2 = some err) ∧
      (∃ err, (Indexer.processTokenMetadata (jsonDeps id (fun _ => none)) {}
        { ContentValue := some payloadBadID }).2 = .error err)) ∧
    ((TokenInfo.UnmarshalJSON jsonUnmarshalBigMap {} payloadGood).2 = none ∧
      (TokenInfo.UnmarshalJSON jsonUnmarshalBigMap {} payloadGood).1.TokenID = 1) := by
  constructor
  · exact (unmarshalJSON_token_id (jsonDeps id (fun _ => none)) {}
      { ContentValue := some payloadBadID } {} payloadBadID
      { TokenID := ascii "x", TokenInfo := [([], ascii "6162")] } rfl payloadBadID_decodes).1
      (by decide)
  · exact (unmarshalJSON_token_id (jsonDeps id (fun _ => none)) {}
      { ContentValue := some payloadGood } {} payloadGood bigMapGood rfl payloadGood_decodes).2
      (by decide) (by decide) (fun link hl => ⟨ascii "ab", by
        have hl2 : link = ascii "6162" := by
          have : GoMap.lookup bigMapGood.TokenInfo [] = some (ascii "6162") := by decide
          rw [this] at hl
          exact (Option.some.inj hl).symm
        rw [hl2]
        decide⟩)

/-- C3 fails as stated: the mapping of `payloadBadID` holds the reserved key with the value
`6162`, the hexadecimal encoding of the valid UTF-8 text `ab`, and decoding
does not succeed, because the token id `x` is rejected first. -/
theorem unmarshalJSON_link_counterexample :
    jsonUnmarshalBigMap payloadBadID =
        .ok { TokenID := ascii "x", TokenInfo := [([], ascii "6162")] } ∧
      DecodeString (ascii "6162") = .ok (ascii "ab") ∧ Valid (ascii "ab") = true ∧
      TokenInfo.UnmarshalJSON jsonUnmarshalBigMap {} payloadBadID =
        ({}, some .strconvErrSyntax) := by
  refine ⟨payloadBadID_decodes, by decide, by decide, ?_⟩
  exact UnmarshalJSON_eq_of_bad_id jsonUnmarshalBigMap {} payloadBadID _ _ payloadBadID_decodes
    (by decide)

/-- C3, amended: decoding into a fresh `TokenInfo`.  A reserved key whose value is no
hexadecimal text always makes decoding fail, with the error of
`hex.DecodeString` when the token id parses.  When the token id parses and the
value is hexadecimal, decoding succeeds; the link is the decoded text when the
decoded bytes are valid UTF-8 and is empty when they are not.  When the key is
absent the link is empty, and decoding succeeds when the token id parses. -/
theorem unmarshalJSON_link
    (unmarshalBigMap : Bytes → Except GoError tokenMetadataBigMap)
    (data : Bytes) (ti : tokenMetadataBigMap)
    (hdata : unmarshalBigMap data = .ok ti) :
    (∀ link err, GoMap.lookup ti.TokenInfo [] = some link → DecodeString link = .error err →
      ∃ e, (TokenInfo.UnmarshalJSON unmarshalBigMap {} data).2 = some e ∧
        ((∃ n, ParseUint ti.TokenID = .ok n) → e = err)) ∧
    (∀ n link b, ParseUint ti.TokenID = .ok n →
      GoMap.lookup ti.TokenInfo [] = some link → DecodeString link = .ok b →
      (TokenInfo.UnmarshalJSON unmarshalBigMap {} data).2 = none ∧
      (Valid b = true → (TokenInfo.UnmarshalJSON unmarshalBigMap {} data).1.Link = b) ∧
      (Valid b = false → (TokenInfo.UnmarshalJSON unmarshalBigMap {} data).1.Link = [])) ∧
    (GoMap.lookup ti.TokenInfo [] = none →
      (TokenInfo.UnmarshalJSON unmarshalBigMap {} data).1.Link = [] ∧
      ((∃ n, ParseUint ti.TokenID = .ok n) →
        (TokenInfo.UnmarshalJSON unmarshalBigMap {} data).2 = none)) := by
  refine ⟨?_, ?_, ?_⟩
  · intro link err hl hhex
    cases hid : ParseUint ti.TokenID with
    | error e0 =>
      rw [UnmarshalJSON_eq_of_bad_id unmarshalBigMap {} data ti e0 hdata hid]
      exact ⟨e0, rfl, fun ⟨n, hn⟩ => by cases hn⟩
    | ok n =>
      rw [UnmarshalJSON_eq_of_bad_link unmarshalBigMap {} data ti n link err hdata hid hl hhex]
      exact ⟨err, rfl, fun _ => rfl⟩
  · intro n link b hid hl hhex
    rw [UnmarshalJSON_eq_of_link unmarshalBigMap {} data ti n link b hdata hid hl hhex]
    refine ⟨rfl, ?_, ?_⟩
    · intro hv; simp [hv]
    · intro hv; simp [hv]
  · intro hl
    cases hid : ParseUint ti.TokenID with
    | error e0 =>
      rw [UnmarshalJSON_eq_of_bad_id unmarshalBigMap {} data ti e0 hdata hid]
      exact ⟨rfl, fun ⟨n, hn⟩ => by cases hn⟩
    | ok n =>
      rw [UnmarshalJSON_eq_of_no_link unmarshalBigMap {} data ti n hdata hid hl]
      exact ⟨rfl, fun _ => rfl⟩

/-- C3 amended, at `payloadGood`: the token id `1` parses and the link `6162` is the
hexadecimal encoding of `ab`, so decoding succeeds with the link `ab`. -/
theorem unmarshalJSON_link_witness :
    (TokenInfo.UnmarshalJSON jsonUnmarshalBigMap {} payloadGood).2 = none ∧
      (TokenInfo.UnmarshalJSON jsonUnmarshalBigMap {} payloadGood).1.Link = ascii "ab" := by
  have h := (unmarshalJSON_link jsonUnmarshalBigMap payloadGood bigMapGood
    payloadGood_decodes).2.1 1 (ascii "6162") (ascii "ab") (by decide) (by decide) (by decide)
  exact ⟨h.1, h.2.1 (by decide)⟩

/-- C4 fails as stated: the link `zz` of `payloadBadLink` is no hexadecimal text;
`TokenInfo.UnmarshalJSON` has stored the mapping in the receiver before it
returns the error of `hex.DecodeString`, and the mapping it leaves there still
holds the empty-string key. -/
theorem unmarshalJSON_removes_link_key_counterexample :
    TokenInfo.UnmarshalJSON jsonUnmarshalBigMap {} payloadBadLink =
        ({ TokenID := 1, TokenInfo := [([], ascii "zz")], Link := [] },
          some (.hexInvalidByteError 122)) ∧
      GoMap.lookup (TokenInfo.UnmarshalJSON jsonUnmarshalBigMap {} payloadBadLink).1.TokenInfo
        [] = some (ascii "zz") := by
  have h := UnmarshalJSON_eq_of_bad_link jsonUnmarshalBigMap {} payloadBadLink _ 1 (ascii "zz")
    (.hexInvalidByteError 122) payloadBadLink_decodes (by decide) (by decide) (by decide)
  rw [h]
  exact ⟨rfl, by decide⟩

/-- C4, amended: whenever `TokenInfo.UnmarshalJSON` returns no error, the mapping held by the
`TokenInfo` has no empty-string key, whether or not the key was in the input
and whether or not its decoded bytes were valid UTF-8. -/
theorem unmarshalJSON_removes_link_key
    (unmarshalBigMap : Bytes → Except GoError tokenMetadataBigMap)
    (tokenInfo : TokenInfo) (data : Bytes)
    (hok : (TokenInfo.UnmarshalJSON unmarshalBigMap tokenInfo data).2 = none) :
    GoMap.lookup (TokenInfo.UnmarshalJSON unmarshalBigMap tokenInfo data).1.TokenInfo [] =
      none := by
  cases hdata : unmarshalBigMap data with
  | error err =>
    simp [TokenInfo.UnmarshalJSON, hdata] at hok
  | ok ti =>
    cases hid : ParseUint ti.TokenID with
    | error err =>
      rw [UnmarshalJSON_eq_of_bad_id unmarshalBigMap tokenInfo data ti err hdata hid] at hok
      cases hok
    | ok n =>
      cases hlink : GoMap.lookup ti.TokenInfo [] with
      | none =>
        rw [UnmarshalJSON_eq_of_no_link unmarshalBigMap tokenInfo data ti n hdata hid hlink]
        show GoMap.lookup (decodeMap ti.TokenInfo) [] = none
        unfold decodeMap
        rw [lookup_foldl_decodeEntry_of_not_mem _ _ _
          (not_mem_keys_of_lookup_none _ _ hlink), hlink]
      | some link =>
        cases hhex : DecodeString link with
        | error err =>
          rw [UnmarshalJSON_eq_of_bad_link unmarshalBigMap tokenInfo data ti n link err hdata hid
            hlink hhex] at hok
          cases hok
        | ok b =>
          rw [UnmarshalJSON_eq_of_link unmarshalBigMap tokenInfo data ti n link b hdata hid hlink
            hhex]
          show GoMap.lookup (decodeMap (GoMap.delete ti.TokenInfo [])) [] = none
          unfold decodeMap
          rw [lookup_foldl_decodeEntry_of_not_mem _ _ _ (GoMap.not_mem_keys_delete _ _),
            GoMap.lookup_delete]
          simp

/-- C4 amended, at `payloadGood`, whose mapping holds the empty-string key: decoding
returns no error and the key is gone. -/
theorem unmarshalJSON_removes_link_key_witness :
    (TokenInfo.UnmarshalJSON jsonUnmarshalBigMap {} payloadGood).2 = none ∧
      GoMap.lookup (TokenInfo.UnmarshalJSON jsonUnmarshalBigMap {} payloadGood).1.TokenInfo
        [] = none :=
  ⟨by decide, unmarshalJSON_removes_link_key jsonUnmarshalBigMap {} payloadGood (by decide)⟩

/-! ## The merger (claims C5 to C8) -/

theorem docA_decodes :
    jsonUnmarshalMap docA = .ok (some [(ascii "a", .string (ascii "x"))]) := rfl

theorem docB_decodes :
    jsonUnmarshalMap docB =
      .ok (some [(ascii "a", .string (ascii "z")), (ascii "b", .string (ascii "y"))]) := rfl

theorem docAB_decodes :
    jsonUnmarshalMap docAB =
      .ok (some [(ascii "a", .string (ascii "x")), (ascii "b", .string (ascii "y"))]) := rfl

theorem docMalformed_rejected : jsonUnmarshalMap docMalformed = .error .jsonError := rfl

theorem docNull_decodes : jsonUnmarshalMap docNull = .ok none := rfl

theorem jsonMarshalMap_total (m : Option (GoMap JSON)) : ∃ out, jsonMarshalMap m = .ok out := by
  cases m <;> exact ⟨_, rfl⟩

/-- C5: for non-empty documents that both parse as JSON objects (and a `json.Marshal` that
does not fail on maps), `mergeTokenMetadata` succeeds and returns the
serialization of an object whose keys are the keys of either side, in which
every key of `existing` keeps the value of `existing` and every key only in
`incoming` has the value of `incoming`. -/
theorem mergeTokenMetadata_union {V : Type} (deps : Deps V) (src got : Bytes)
    (srcMap gotMap : GoMap V) (hsrc : src ≠ []) (hgot : got ≠ [])
    (hs : deps.unmarshalMap src = .ok (some srcMap))
    (hg : deps.unmarshalMap got = .ok (some gotMap))
    (hmarshal : ∀ m, ∃ out, deps.marshalMap m = .ok out) :
    ∃ merged out, mergeTokenMetadata deps src got = .ok out ∧
      deps.marshalMap (some merged) = .ok out ∧
      (∀ key, (∃ v, GoMap.lookup merged key = some v) ↔
        ((∃ v, GoMap.lookup srcMap key = some v) ∨ (∃ v, GoMap.lookup gotMap key = some v))) ∧
      (∀ key v, GoMap.lookup srcMap key = some v → GoMap.lookup merged key = some v) ∧
      (∀ key v, GoMap.lookup srcMap key = none → GoMap.lookup gotMap key = some v →
        GoMap.lookup merged key = some v) := by
  obtain ⟨out, hout⟩ := hmarshal (some (mergeMaps srcMap gotMap))
  refine ⟨mergeMaps srcMap gotMap, out, ?_, hout, ?_, ?_, ?_⟩
  · exact mergeTokenMetadata_objects deps src got srcMap gotMap out hsrc hgot hs hg hout
  · intro key
    rw [lookup_mergeMaps]
    cases h : GoMap.lookup srcMap key <;> simp
  · intro key v h
    rw [lookup_mergeMaps, h]
  · intro key v h1 h2
    rw [lookup_mergeMaps, h1]
    exact h2

/-- C5, at `existing = {"a":"x"}` and `incoming = {"b":"y","a":"z"}`. -/
theorem mergeTokenMetadata_union_witness :
    ∃ merged out, mergeTokenMetadata (jsonDeps id (fun _ => none)) docA docB = .ok out ∧
      jsonMarshalMap (some merged) = .ok out ∧
      (∀ key, (∃ v, GoMap.lookup merged key = some v) ↔
        ((∃ v, GoMap.lookup [(ascii "a", JSON.string (ascii "x"))] key = some v) ∨
          (∃ v, GoMap.lookup
            [(ascii "a", JSON.string (ascii "z")), (ascii "b", JSON.string (ascii "y"))]
            key = some v))) ∧
      (∀ key v, GoMap.lookup [(ascii "a", JSON.string (ascii "x"))] key = some v →
        GoMap.lookup merged key = some v) ∧
      (∀ key v, GoMap.lookup [(ascii "a", JSON.string (ascii "x"))] key = none →
        GoMap.lookup
          [(ascii "a", JSON.string (ascii "z")), (ascii "b", JSON.string (ascii "y"))]
          key = some v →
        GoMap.lookup merged key = some v) :=
  mergeTokenMetadata_union (jsonDeps id (fun _ => none)) docA docB _ _ (by decide) (by decide)
    docA_decodes docB_decodes jsonMarshalMap_total

/-- C6 fails as stated.  The text `x` is present and is no JSON object, and merging it into
an empty document returns it without an error.  The document `null` is present
and is no JSON object: as `incoming` it is accepted and the merge returns
`existing` re-serialized, without an error; as `existing` next to an object with
a key it leaves a `nil` map and the merge does not return an error but
panics. -/
theorem mergeTokenMetadata_error_counterexample :
    (jsonUnmarshalMap docMalformed = .error .jsonError ∧
      mergeTokenMetadata (jsonDeps id (fun _ => none)) [] docMalformed = .ok docMalformed) ∧
    mergeTokenMetadata (jsonDeps id (fun _ => none)) docA docNull = .ok docA ∧
    mergeTokenMetadata (jsonDeps id (fun _ => none)) docNull docA = .panicked :=
  ⟨⟨docMalformed_rejected, mergeTokenMetadata_src_empty _ _⟩, by decide, by decide⟩

/-- C6, amended: (for a `json.Marshal` that does not fail on maps) `mergeTokenMetadata` returns
an error exactly when both sides are non-empty and `json.Unmarshal` rejects at
least one of them; it panics exactly when both sides are non-empty, `existing`
is the document `null` and `incoming` is an object with at least one key. -/
theorem mergeTokenMetadata_error_iff {V : Type} (deps : Deps V) (src got : Bytes)
    (hmarshal : ∀ m, ∃ out, deps.marshalMap m = .ok out) :
    ((∃ err, mergeTokenMetadata deps src got = .error err) ↔
      (src ≠ [] ∧ got ≠ [] ∧
        ((∃ err, deps.unmarshalMap src = .error err) ∨
          (∃ err, deps.unmarshalMap got = .error err)))) ∧
    (mergeTokenMetadata deps src got = .panicked ↔
      (src ≠ [] ∧ got ≠ [] ∧ deps.unmarshalMap src = .ok none ∧
        ∃ gotMap, deps.unmarshalMap got = .ok (some gotMap) ∧ gotMap ≠ [])) := by
  by_cases hsrc : src = []
  · subst hsrc
    simp [mergeTokenMetadata_src_empty]
  by_cases hgot : got = []
  · subst hgot
    simp [mergeTokenMetadata_got_empty]
  rw [mergeTokenMetadata_both deps src got hsrc hgot]
  cases hs : deps.unmarshalMap src with
  | error e => simp [hsrc, hgot]
  | ok srcMap =>
    cases hg : deps.unmarshalMap got with
    | error e => simp [hsrc, hgot]
    | ok gotMap =>
      cases srcMap with
      | some m =>
        obtain ⟨out, hout⟩ := hmarshal (some (mergeMaps m (gotMap.getD [])))
        simp [hsrc, hgot, mergeNilMaps_some, hout]
      | none =>
        cases gotMap with
        | none =>
          obtain ⟨out, hout⟩ := hmarshal none
          simp [hsrc, hgot, mergeNilMaps_none_nil, hout]
        | some g =>
          cases g with
          | nil =>
            obtain ⟨out, hout⟩ := hmarshal none
            simp [hsrc, hgot, mergeNilMaps_none_nil, hout]
          | cons e t => simp [hsrc, hgot, mergeNilMaps_none_cons]

/-- C6 amended, at `existing = x` and `incoming = {"a":"x"}`: both are present and the first
is rejected, so the merge returns an error. -/
theorem mergeTokenMetadata_error_iff_witness :
    ∃ err, mergeTokenMetadata (jsonDeps id (fun _ => none)) docMalformed docA = .error err :=
  (mergeTokenMetadata_error_iff (jsonDeps id (fun _ => none)) docMalformed docA
    jsonMarshalMap_total).1.2
    ⟨by decide, by decide, Or.inl ⟨.jsonError, docMalformed_rejected⟩⟩

/-- C7: merging into an empty document returns `incoming` verbatim and merging an empty
document returns `existing` verbatim, without an error, for all documents. -/
theorem mergeTokenMetadata_empty {V : Type} (deps : Deps V) (A B : Bytes) :
    mergeTokenMetadata deps [] B = .ok B ∧ mergeTokenMetadata deps A [] = .ok A :=
  ⟨mergeTokenMetadata_src_empty deps B, mergeTokenMetadata_got_empty deps A⟩

theorem goInt_eq (x : Int) (h1 : -2 ^ 63 ≤ x) (h2 : x < 2 ^ 63) : goInt x = x := by
  unfold goInt
  omega

theorem goInt_goInt_add (x y : Int) : goInt (goInt x + y) = goInt (x + y) := by
  unfold goInt
  omega

theorem goInt_range (x : Int) : -2 ^ 63 ≤ goInt x ∧ goInt x < 2 ^ 63 := by
  unfold goInt
  omega

theorem logTokenMetadata_settings (indexer : Indexer) (tm : models.TokenMetadata)
    (str level : Bytes) :
    (indexer.logTokenMetadata tm str level).MaxRetryCountOnError = indexer.MaxRetryCountOnError ∧
      (indexer.logTokenMetadata tm str level).tokenActionsCounter =
        indexer.tokenActionsCounter := by
  unfold Indexer.logTokenMetadata
  split <;> exact ⟨rfl, rfl⟩

theorem resolveTokenMetadata_error {V : Type} (deps : Deps V) (indexer : Indexer)
    (tm : models.TokenMetadata) (err : resolver.Error) :
    (indexer.resolveTokenMetadata deps (.error err) tm).2.1 =
        { afterError indexer.MaxRetryCountOnError err tm with
          UpdateID := indexer.tokenActionsCounter.value + 1 } ∧
      (indexer.resolveTokenMetadata deps (.error err) tm).2.2 = .returned none ∧
      (indexer.resolveTokenMetadata deps (.error err) tm).1.MaxRetryCountOnError =
        indexer.MaxRetryCountOnError := by
  have hlog := logTokenMetadata_settings indexer tm (ascii "Trying to resolve") (ascii "info")
  unfold Indexer.resolveTokenMetadata afterError
  simp only [Bool.or_eq_true, hlog.1]
  by_cases ht : err.isErrNoIPFSResponse = true ∨ err.isErrTezosStorageKeyNotFound = true
  · simp only [ht, if_true]
    by_cases hlt : goInt (tm.RetryCount + 1) < indexer.MaxRetryCountOnError
    · simp only [hlt, if_true]
      cases err.ResolvingError <;>
        simp [Indexer.incrementCounter, Indexer.incrementErrorCounter,
          helpers.Counter.Increment, logTokenMetadata_settings, hlog.2]
    · simp only [hlt, if_false]
      cases err.ResolvingError <;>
        simp [Indexer.incrementCounter, Indexer.incrementErrorCounter,
          helpers.Counter.Increment, logTokenMetadata_settings, hlog.2]
  · simp only [ht, if_false]
    cases err.ResolvingError <;>
      simp [Indexer.incrementCounter, Indexer.incrementErrorCounter,
        helpers.Counter.Increment, logTokenMetadata_settings, hlog.2]

/-- C9 fails as stated: `RetryCount` is a Go `int`.  On a record whose retry count is the
largest `int`, `2^63 - 1`, a transient error under maximum 3 leaves the retry
count `-2^63`, which is not the count plus one, and the status `New`, although
the count plus one is above the maximum. -/
theorem resolveTokenMetadata_transient_counterexample :
    (Indexer.resolveTokenMetadata (jsonDeps id url.ParseRequestURI)
        { MaxRetryCountOnError := 3 } (.error { isErrNoIPFSResponse := true })
        { RetryCount := 9223372036854775807 }).2.1.RetryCount = -9223372036854775808 ∧
      (Indexer.resolveTokenMetadata (jsonDeps id url.ParseRequestURI)
        { MaxRetryCountOnError := 3 } (.error { isErrNoIPFSResponse := true })
        { RetryCount := 9223372036854775807 }).2.1.Status = .StatusNew ∧
      (9223372036854775807 : Int) + 1 ≥ 3 := by
  decide

/-- C9, amended: on a record whose retry count (a Go `int`) is below the largest `int`,
`2^63 - 1`, a transient resolver error (no IPFS response, or Tezos storage key
not found) makes `resolveTokenMetadata` return no error, increment `RetryCount`
by one and leave `Metadata` unchanged; the status is `Failed` when the
incremented count has reached the configured maximum and otherwise the status
before the attempt.  With maximum 3, a `New` record with count 0 and three
transient errors in a row, the status is `New` after the first two attempts
and `Failed` after the third, with count 3. -/
theorem resolveTokenMetadata_transient {V : Type} (deps : Deps V) (indexer : Indexer)
    (tm : models.TokenMetadata) (err : resolver.Error)
    (herr : err.isErrNoIPFSResponse = true ∨ err.isErrTezosStorageKeyNotFound = true)
    (hint : -2 ^ 63 ≤ tm.RetryCount) (hbelow : tm.RetryCount < 2 ^ 63 - 1) :
    ((indexer.resolveTokenMetadata deps (.error err) tm).2.2 = .returned none ∧
      (indexer.resolveTokenMetadata deps (.error err) tm).2.1.RetryCount = tm.RetryCount + 1 ∧
      (indexer.resolveTokenMetadata deps (.error err) tm).2.1.Metadata = tm.Metadata ∧
      (indexer.resolveTokenMetadata deps (.error err) tm).2.1.Status =
        if tm.RetryCount + 1 ≥ indexer.MaxRetryCountOnError then .StatusFailed
        else tm.Status) ∧
    (∀ err2 err3 : resolver.Error,
      (err2.isErrNoIPFSResponse = true ∨ err2.isErrTezosStorageKeyNotFound = true) →
      (err3.isErrNoIPFSResponse = true ∨ err3.isErrTezosStorageKeyNotFound = true) →
      indexer.MaxRetryCountOnError = 3 → tm.Status = .StatusNew → tm.RetryCount = 0 →
      (indexer.resolveTokenMetadata deps (.error err) tm).2.1.Status = .StatusNew ∧
      (Indexer.resolveTokenMetadata deps
        (indexer.resolveTokenMetadata deps (.error err) tm).1 (.error err2)
        (indexer.resolveTokenMetadata deps (.error err) tm).2.1).2.1.Status = .StatusNew ∧
      (Indexer.resolveTokenMetadata deps
        (Indexer.resolveTokenMetadata deps
          (indexer.resolveTokenMetadata deps (.error err) tm).1 (.error err2)
          (indexer.resolveTokenMetadata deps (.error err) tm).2.1).1 (.error err3)
        (Indexer.resolveTokenMetadata deps
          (indexer.resolveTokenMetadata deps (.error err) tm).1 (.error err2)
          (indexer.resolveTokenMetadata deps (.error err) tm).2.1).2.1).2.1.Status =
        .StatusFailed ∧
      (Indexer.resolveTokenMetadata deps
        (Indexer.resolveTokenMetadata deps
          (indexer.resolveTokenMetadata deps (.error err) tm).1 (.error err2)
          (indexer.resolveTokenMetadata deps (.error err) tm).2.1).1 (.error err3)
        (Indexer.resolveTokenMetadata deps
          (indexer.resolveTokenMetadata deps (.error err) tm).1 (.error err2)
          (indexer.resolveTokenMetadata deps (.error err) tm).2.1).2.1).2.1.RetryCount = 3) := by
  have step : ∀ (i : Indexer) (t : models.TokenMetadata) (e : resolver.Error),
      (e.isErrNoIPFSResponse = true ∨ e.isErrTezosStorageKeyNotFound = true) →
      -2 ^ 63 ≤ t.RetryCount → t.RetryCount < 2 ^ 63 - 1 →
      (i.resolveTokenMetadata deps (.error e) t).2.2 = .returned none ∧
      (i.resolveTokenMetadata deps (.error e) t).2.1.RetryCount = t.RetryCount + 1 ∧
      (i.resolveTokenMetadata deps (.error e) t).2.1.Metadata = t.Metadata ∧
      (i.resolveTokenMetadata deps (.error e) t).2.1.Status =
        (if t.RetryCount + 1 ≥ i.MaxRetryCountOnError then .StatusFailed else t.Status) ∧
      (i.resolveTokenMetadata deps (.error e) t).1.MaxRetryCountOnError =
        i.MaxRetryCountOnError := by
    intro i t e he hlo hhi
    obtain ⟨h1, h2, h3⟩ := resolveTokenMetadata_error deps i t e
    have hg : goInt (t.RetryCount + 1) = t.RetryCount + 1 :=
      goInt_eq _ (by omega) (by omega)
    rw [h1]
    refine ⟨h2, ?_, ?_, ?_, h3⟩
    · unfold afterError
      rw [if_pos he, hg]
      split <;> rfl
    · unfold afterError
      rw [if_pos he]
      split <;> rfl
    · unfold afterError
      rw [if_pos he, hg]
      by_cases hlt : t.RetryCount + 1 < i.MaxRetryCountOnError
      · rw [if_pos hlt, if_neg (by omega)]
      · rw [if_neg hlt, if_pos (by omega)]
  refine ⟨⟨(step indexer tm err herr hint hbelow).1, (step indexer tm err herr hint hbelow).2.1,
    (step indexer tm err herr hint hbelow).2.2.1,
    (step indexer tm err herr hint hbelow).2.2.2.1⟩, ?_⟩
  intro err2 err3 h2 h3 hmax hnew hzero
  obtain ⟨-, a1, -, a2, a3⟩ := step indexer tm err herr hint hbelow
  rw [hzero] at a1
  obtain ⟨-, b1, -, b2, b3⟩ := step (indexer.resolveTokenMetadata deps (.error err) tm).1
    (indexer.resolveTokenMetadata deps (.error err) tm).2.1 err2 h2
    (by rw [a1]; decide) (by rw [a1]; decide)
  rw [a1] at b1
  obtain ⟨-, c1, -, c2, -⟩ := step
    (Indexer.resolveTokenMetadata deps
      (indexer.resolveTokenMetadata deps (.error err) tm).1 (.error err2)
      (indexer.resolveTokenMetadata deps (.error err) tm).2.1).1
    (Indexer.resolveTokenMetadata deps
      (indexer.resolveTokenMetadata deps (.error err) tm).1 (.error err2)
      (indexer.resolveTokenMetadata deps (.error err) tm).2.1).2.1 err3 h3
    (by rw [b1]; decide) (by rw [b1]; decide)
  rw [hmax] at a3
  rw [a3] at b3
  rw [hzero, hmax, hnew] at a2
  rw [a1, a3, a2] at b2
  rw [b1, b3, b2] at c2
  rw [b1] at c1
  refine ⟨?_, ?_, ?_, ?_⟩
  · rw [a2]; decide
  · rw [b2]; decide
  · rw [c2]; decide
  · rw [c1]; decide

/-- C9 amended, at maximum 3, a `New` record with count 0 and the error "no IPFS response": the
first attempt leaves the status `New` with count 1. -/
theorem resolveTokenMetadata_transient_witness :
    (Indexer.resolveTokenMetadata (jsonDeps id (fun _ => none))
        { MaxRetryCountOnError := 3 } (.error { isErrNoIPFSResponse := true }) {}).2.1.RetryCount
        = 0 + 1 ∧
      (Indexer.resolveTokenMetadata (jsonDeps id (fun _ => none))
        { MaxRetryCountOnError := 3 } (.error { isErrNoIPFSResponse := true }) {}).2.1.Status
        = .StatusNew :=
  ⟨(resolveTokenMetadata_transient (jsonDeps id (fun _ => none)) { MaxRetryCountOnError := 3 }
      {} { isErrNoIPFSResponse := true } (Or.inl rfl) (by decide) (by decide)).1.2.1,
    ((resolveTokenMetadata_transient (jsonDeps id (fun _ => none)) { MaxRetryCountOnError := 3 }
      {} { isErrNoIPFSResponse := true } (Or.inl rfl) (by decide) (by decide)).2
      { isErrNoIPFSResponse := true } { isErrTezosStorageKeyNotFound := true }
      (Or.inl rfl) (Or.inr rfl) rfl rfl rfl).1⟩

/-- C10: on a resolver error that is neither of the two transient kinds,
`resolveTokenMetadata` returns no error, sets the status to `Failed` whatever
the retry count and the configured maximum are, and leaves `RetryCount` and
`Metadata` as they were. -/
theorem resolveTokenMetadata_other_error {V : Type} (deps : Deps V) (indexer : Indexer)
    (tm : models.TokenMetadata) (err : resolver.Error)
    (h1 : err.isErrNoIPFSResponse = false) (h2 : err.isErrTezosStorageKeyNotFound = false) :
    (indexer.resolveTokenMetadata deps (.error err) tm).2.2 = .returned none ∧
      (indexer.resolveTokenMetadata deps (.error err) tm).2.1.Status = .StatusFailed ∧
      (indexer.resolveTokenMetadata deps (.error err) tm).2.1.RetryCount = tm.RetryCount ∧
      (indexer.resolveTokenMetadata deps (.error err) tm).2.1.Metadata = tm.Metadata := by
  obtain ⟨e1, e2, -⟩ := resolveTokenMetadata_error deps indexer tm err
  rw [e1]
  refine ⟨e2, ?_, ?_, ?_⟩ <;>
    simp [afterError, h1, h2]

/-- C10, at a `New` record with count 0 under maximum 3 and an unclassified error: the status
is `Failed` at once and the count stays 0. -/
theorem resolveTokenMetadata_other_error_witness :
    (Indexer.resolveTokenMetadata (jsonDeps id (fun _ => none))
        { MaxRetryCountOnError := 3 } (.error {}) {}).2.1.Status = .StatusFailed ∧
      (Indexer.resolveTokenMetadata (jsonDeps id (fun _ => none))
        { MaxRetryCountOnError := 3 } (.error {}) {}).2.1.RetryCount = 0 :=
  ⟨(resolveTokenMetadata_other_error (jsonDeps id (fun _ => none))
      { MaxRetryCountOnError := 3 } {} {} rfl rfl).2.1,
    (resolveTokenMetadata_other_error (jsonDeps id (fun _ => none))
      { MaxRetryCountOnError := 3 } {} {} rfl rfl).2.2.1⟩

/-! ## Lemmas on `resolveTokenMetadata` and `tokenWorker` -/

theorem logTokenMetadata_network (indexer : Indexer) (tm : models.TokenMetadata)
    (str level : Bytes) : (indexer.logTokenMetadata tm str level).network = indexer.network := by
  unfold Indexer.logTokenMetadata
  split <;> rfl

theorem logTokenMetadata_dbUpdates (indexer : Indexer) (tm : models.TokenMetadata)
    (str level : Bytes) :
    (indexer.logTokenMetadata tm str level).dbUpdates = indexer.dbUpdates := by
  unfold Indexer.logTokenMetadata
  split <;> rfl

theorem logTokenMetadata_max (indexer : Indexer) (tm : models.TokenMetadata)
    (str level : Bytes) :
    (indexer.logTokenMetadata tm str level).MaxRetryCountOnError =
      indexer.MaxRetryCountOnError :=
  (logTokenMetadata_settings indexer tm str level).1

theorem logTokenMetadata_counter (indexer : Indexer) (tm : models.TokenMetadata)
    (str level : Bytes) :
    (indexer.logTokenMetadata tm str level).tokenActionsCounter =
      indexer.tokenActionsCounter :=
  (logTokenMetadata_settings indexer tm str level).2

theorem resolveTokenMetadata_merge_error {V : Type} (deps : Deps V) (indexer : Indexer)
    (tm : models.TokenMetadata) (data : Bytes) (err : GoError)
    (hmerge : mergeTokenMetadata deps tm.Metadata data = .error err) :
    indexer.resolveTokenMetadata deps (.ok data) tm =
      (indexer.logTokenMetadata tm (ascii "Trying to resolve") (ascii "info"), tm,
        .returned (some err)) := by
  unfold Indexer.resolveTokenMetadata
  simp only [hmerge]

theorem resolveTokenMetadata_merge_panics {V : Type} (deps : Deps V) (indexer : Indexer)
    (tm : models.TokenMetadata) (data : Bytes)
    (hmerge : mergeTokenMetadata deps tm.Metadata data = .panicked) :
    indexer.resolveTokenMetadata deps (.ok data) tm =
      (indexer.logTokenMetadata tm (ascii "Trying to resolve") (ascii "info"), tm,
        .panicked) := by
  unfold Indexer.resolveTokenMetadata
  simp only [hmerge]

theorem resolveTokenMetadata_merged {V : Type} (deps : Deps V) (indexer : Indexer)
    (tm : models.TokenMetadata) (data metadata : Bytes)
    (hmerge : mergeTokenMetadata deps tm.Metadata data = .ok metadata) :
    (indexer.resolveTokenMetadata deps (.ok data) tm).2.1 =
        (if Valid metadata = true then
          { tm with
            Metadata := deps.Escape metadata
            Status := .StatusApplied
            UpdateID := indexer.tokenActionsCounter.value + 1 }
        else
          { tm with
            Status := .StatusFailed
            UpdateID := indexer.tokenActionsCounter.value + 1 }) ∧
      (indexer.resolveTokenMetadata deps (.ok data) tm).2.2 = .returned none := by
  unfold Indexer.resolveTokenMetadata
  simp only [hmerge]
  by_cases hv : Valid metadata = true
  · simp [hv, Indexer.incrementCounter, helpers.Counter.Increment, logTokenMetadata_counter]
  · simp [hv, Indexer.incrementCounter, helpers.Counter.Increment, logTokenMetadata_counter]

theorem resolveTokenMetadata_indexer {V : Type} (deps : Deps V) (indexer : Indexer)
    (resolved : Except resolver.Error Bytes) (tm : models.TokenMetadata) :
    (indexer.resolveTokenMetadata deps resolved tm).1.network = indexer.network ∧
      (indexer.resolveTokenMetadata deps resolved tm).1.MaxRetryCountOnError =
        indexer.MaxRetryCountOnError ∧
      (indexer.resolveTokenMetadata deps resolved tm).1.dbUpdates = indexer.dbUpdates ∧
      ((indexer.resolveTokenMetadata deps resolved tm).2.2 = .returned none →
        (indexer.resolveTokenMetadata deps resolved tm).1.tokenActionsCounter.value =
            indexer.tokenActionsCounter.value + 1 ∧
          (indexer.resolveTokenMetadata deps resolved tm).2.1.UpdateID =
            indexer.tokenActionsCounter.value + 1) ∧
      ((indexer.resolveTokenMetadata deps resolved tm).2.2 ≠ .returned none →
        (indexer.resolveTokenMetadata deps resolved tm).1.tokenActionsCounter =
            indexer.tokenActionsCounter ∧
          (indexer.resolveTokenMetadata deps resolved tm).2.1 = tm) := by
  cases resolved with
  | error err =>
    obtain ⟨text, f1, f2, kind⟩ := err
    unfold Indexer.resolveTokenMetadata
    by_cases ht : (f1 || f2) = true
    · by_cases hlt : goInt (tm.RetryCount + 1) < indexer.MaxRetryCountOnError
      · cases kind <;>
          simp [ht, hlt, Indexer.incrementCounter, Indexer.incrementErrorCounter,
            helpers.Counter.Increment, logTokenMetadata_counter, logTokenMetadata_max,
            logTokenMetadata_network, logTokenMetadata_dbUpdates]
      · cases kind <;>
          simp [ht, hlt, Indexer.incrementCounter, Indexer.incrementErrorCounter,
            helpers.Counter.Increment, logTokenMetadata_counter, logTokenMetadata_max,
            logTokenMetadata_network, logTokenMetadata_dbUpdates]
    · cases kind <;>
        simp [ht, Indexer.incrementCounter, Indexer.incrementErrorCounter,
          helpers.Counter.Increment, logTokenMetadata_counter, logTokenMetadata_max,
          logTokenMetadata_network, logTokenMetadata_dbUpdates]
  | ok data =>
    cases hmerge : mergeTokenMetadata deps tm.Metadata data with
    | panicked =>
      rw [resolveTokenMetadata_merge_panics deps indexer tm data hmerge]
      simp [logTokenMetadata_counter, logTokenMetadata_max, logTokenMetadata_network,
        logTokenMetadata_dbUpdates]
    | error err =>
      rw [resolveTokenMetadata_merge_error deps indexer tm data err hmerge]
      simp [logTokenMetadata_counter, logTokenMetadata_max, logTokenMetadata_network,
        logTokenMetadata_dbUpdates]
    | ok metadata =>
      unfold Indexer.resolveTokenMetadata
      simp only [hmerge]
      by_cases hv : Valid metadata = true
      · simp [hv, Indexer.incrementCounter, helpers.Counter.Increment,
          logTokenMetadata_counter, logTokenMetadata_max, logTokenMetadata_network,
          logTokenMetadata_dbUpdates]
      · simp [hv, Indexer.incrementCounter, helpers.Counter.Increment,
          logTokenMetadata_counter, logTokenMetadata_max, logTokenMetadata_network,
          logTokenMetadata_dbUpdates]

theorem resolveTokenMetadata_frame {V : Type} (deps : Deps V) (indexer : Indexer)
    (resolved : Except resolver.Error Bytes) (tm : models.TokenMetadata) :
    (indexer.resolveTokenMetadata deps resolved tm).2.1.Network = tm.Network ∧
      (indexer.resolveTokenMetadata deps resolved tm).2.1.Contract = tm.Contract ∧
      (indexer.resolveTokenMetadata deps resolved tm).2.1.TokenID = tm.TokenID ∧
      (indexer.resolveTokenMetadata deps resolved tm).2.1.Link = tm.Link := by
  cases resolved with
  | error err =>
    rw [(resolveTokenMetadata_error deps indexer tm err).1]
    unfold afterError
    split
    · split <;> exact ⟨rfl, rfl, rfl, rfl⟩
    · exact ⟨rfl, rfl, rfl, rfl⟩
  | ok data =>
    cases hmerge : mergeTokenMetadata deps tm.Metadata data with
    | panicked =>
      rw [resolveTokenMetadata_merge_panics deps indexer tm data hmerge]
      exact ⟨rfl, rfl, rfl, rfl⟩
    | error err =>
      rw [resolveTokenMetadata_merge_error deps indexer tm data err hmerge]
      exact ⟨rfl, rfl, rfl, rfl⟩
    | ok metadata =>
      rw [(resolveTokenMetadata_merged deps indexer tm data metadata hmerge).1]
      split <;> exact ⟨rfl, rfl, rfl, rfl⟩

theorem tokenWorker_of_error {V : Type} (deps : Deps V) (indexer : Indexer)
    (resolved : Except resolver.Error Bytes) (dbErr : Option GoError)
    (token : models.TokenMetadata) (err : GoError)
    (h : (indexer.resolveTokenMetadata deps resolved token).2.2 = .returned (some err)) :
    indexer.tokenWorker deps resolved dbErr token =
      ((indexer.resolveTokenMetadata deps resolved token).1, .returned (some err)) := by
  unfold Indexer.tokenWorker
  generalize indexer.resolveTokenMetadata deps resolved token = r at h
  obtain ⟨i, t, e⟩ := r
  simp only at h
  subst h
  rfl

theorem tokenWorker_of_panic {V : Type} (deps : Deps V) (indexer : Indexer)
    (resolved : Except resolver.Error Bytes) (dbErr : Option GoError)
    (token : models.TokenMetadata)
    (h : (indexer.resolveTokenMetadata deps resolved token).2.2 = .panicked) :
    indexer.tokenWorker deps resolved dbErr token =
      ((indexer.resolveTokenMetadata deps resolved token).1, .panicked) := by
  unfold Indexer.tokenWorker
  generalize indexer.resolveTokenMetadata deps resolved token = r at h
  obtain ⟨i, t, e⟩ := r
  simp only at h
  subst h
  rfl

theorem tokenWorker_of_success {V : Type} (deps : Deps V) (indexer : Indexer)
    (resolved : Except resolver.Error Bytes) (dbErr : Option GoError)
    (token : models.TokenMetadata)
    (h : (indexer.resolveTokenMetadata deps resolved token).2.2 = .returned none) :
    indexer.tokenWorker deps resolved dbErr token =
      ({ (indexer.resolveTokenMetadata deps resolved token).1 with
          dbUpdates := (indexer.resolveTokenMetadata deps resolved token).1.dbUpdates ++
            [((indexer.resolveTokenMetadata deps resolved token).2.1,
              [(ascii "status",
                  .status (indexer.resolveTokenMetadata deps resolved token).2.1.Status),
               (ascii "metadata",
                  .bytes (indexer.resolveTokenMetadata deps resolved token).2.1.Metadata),
               (ascii "retry_count",
                  .int (indexer.resolveTokenMetadata deps resolved token).2.1.RetryCount),
               (ascii "update_id",
                  .int (indexer.resolveTokenMetadata deps resolved token).2.1.UpdateID)])] },
        .returned dbErr) := by
  unfold Indexer.tokenWorker
  generalize indexer.resolveTokenMetadata deps resolved token = r at h
  obtain ⟨i, t, e⟩ := r
  simp only at h
  subst h
  rfl


/-! ## Successful resolution and merge failure (claims C11 and C12) -/

/-- C11: when the resolver succeeds and the merge with the record's metadata succeeds,
`resolveTokenMetadata` returns no error and leaves `RetryCount` unchanged; if
the merged document is valid UTF-8 the status becomes `Applied` and the
metadata becomes the escaped merged document, and if it is not the status
becomes `Failed` and the metadata stays what it was. -/
theorem resolveTokenMetadata_success {V : Type} (deps : Deps V) (indexer : Indexer)
    (tm : models.TokenMetadata) (data metadata : Bytes)
    (hmerge : mergeTokenMetadata deps tm.Metadata data = .ok metadata) :
    (indexer.resolveTokenMetadata deps (.ok data) tm).2.2 = .returned none ∧
      (indexer.resolveTokenMetadata deps (.ok data) tm).2.1.RetryCount = tm.RetryCount ∧
      (Valid metadata = true →
        (indexer.resolveTokenMetadata deps (.ok data) tm).2.1.Status = .StatusApplied ∧
          (indexer.resolveTokenMetadata deps (.ok data) tm).2.1.Metadata =
            deps.Escape metadata) ∧
      (Valid metadata = false →
        (indexer.resolveTokenMetadata deps (.ok data) tm).2.1.Status = .StatusFailed ∧
          (indexer.resolveTokenMetadata deps (.ok data) tm).2.1.Metadata = tm.Metadata) := by
  obtain ⟨h1, h2⟩ := resolveTokenMetadata_merged deps indexer tm data metadata hmerge
  rw [h1]
  refine ⟨h2, ?_, ?_, ?_⟩
  · split <;> rfl
  · intro hv
    rw [if_pos hv]
    exact ⟨rfl, rfl⟩
  · intro hv
    rw [if_neg (by simp [hv])]
    exact ⟨rfl, rfl⟩

/-- C11, at two records: a record holding `{"a":"x"}` and the resolved document
`{"b":"y","a":"z"}` give `Applied` with the metadata `{"a":"x","b":"y"}`; a
record without metadata and the resolved byte `0xff`, which is no UTF-8 text,
give `Failed` with the metadata still empty. -/
theorem resolveTokenMetadata_success_witness :
    ((Indexer.resolveTokenMetadata (jsonDeps id url.ParseRequestURI) {} (.ok docB)
        { Metadata := docA }).2.1.Status = .StatusApplied ∧
      (Indexer.resolveTokenMetadata (jsonDeps id url.ParseRequestURI) {} (.ok docB)
        { Metadata := docA }).2.1.Metadata = docAB) ∧
    ((Indexer.resolveTokenMetadata (jsonDeps id url.ParseRequestURI) {} (.ok [255])
        { Metadata := [] }).2.1.Status = .StatusFailed ∧
      (Indexer.resolveTokenMetadata (jsonDeps id url.ParseRequestURI) {} (.ok [255])
        { Metadata := [] }).2.1.Metadata = []) :=
  ⟨(resolveTokenMetadata_success (jsonDeps id url.ParseRequestURI) {} { Metadata := docA }
      docB docAB (by decide)).2.2.1 (by decide),
    (resolveTokenMetadata_success (jsonDeps id url.ParseRequestURI) {} { Metadata := [] }
      [255] [255] (by decide)).2.2.2 (by decide)⟩

/-- C12: when the resolver succeeds and `mergeTokenMetadata` fails, `resolveTokenMetadata`
returns that error, leaves the record as it was (status, metadata, retry count
and update id included) and does not advance the update-id counter;
`tokenWorker` returns the error and records no call of
`db.UpdateTokenMetadata`. -/
theorem resolveTokenMetadata_merge_failure {V : Type} (deps : Deps V) (indexer : Indexer)
    (tm : models.TokenMetadata) (data : Bytes) (err : GoError) (dbErr : Option GoError)
    (hmerge : mergeTokenMetadata deps tm.Metadata data = .error err) :
    (indexer.resolveTokenMetadata deps (.ok data) tm).2.2 = .returned (some err) ∧
      (indexer.resolveTokenMetadata deps (.ok data) tm).2.1 = tm ∧
      (indexer.resolveTokenMetadata deps (.ok data) tm).1.tokenActionsCounter =
        indexer.tokenActionsCounter ∧
      (indexer.tokenWorker deps (.ok data) dbErr tm).2 = .returned (some err) ∧
      (indexer.tokenWorker deps (.ok data) dbErr tm).1.dbUpdates = indexer.dbUpdates ∧
      (indexer.tokenWorker deps (.ok data) dbErr tm).1.tokenActionsCounter =
        indexer.tokenActionsCounter := by
  have hr := resolveTokenMetadata_merge_error deps indexer tm data err hmerge
  have hw := tokenWorker_of_error deps indexer (.ok data) dbErr tm err (by rw [hr])
  rw [hw, hr]
  exact ⟨rfl, rfl, logTokenMetadata_counter _ _ _ _, rfl, logTokenMetadata_dbUpdates _ _ _ _,
    logTokenMetadata_counter _ _ _ _⟩

/-- C12, at a record whose stored metadata `x` is no JSON document and the resolved
document `{"a":"x"}`: the attempt returns the JSON error, the record is
unchanged and the worker records no update. -/
theorem resolveTokenMetadata_merge_failure_witness :
    (Indexer.resolveTokenMetadata (jsonDeps id url.ParseRequestURI) {} (.ok docA)
        { Metadata := docMalformed }).2.2 = .returned (some .jsonError) ∧
      (Indexer.resolveTokenMetadata (jsonDeps id url.ParseRequestURI) {} (.ok docA)
        { Metadata := docMalformed }).2.1 = { Metadata := docMalformed } ∧
      (Indexer.tokenWorker (jsonDeps id url.ParseRequestURI) {} (.ok docA) none
        { Metadata := docMalformed }).1.dbUpdates = [] :=
  have h := resolveTokenMetadata_merge_failure (jsonDeps id url.ParseRequestURI) {}
    { Metadata := docMalformed } docA .jsonError none (by decide)
  ⟨h.1, h.2.1, h.2.2.2.2.1⟩

/-! ## Record construction (claims C13 and C14) -/

theorem processTokenMetadata_of_decoded {V : Type} (deps : Deps V) (indexer : Indexer)
    (update : api.BigMapUpdate) (data : Bytes) (tokenInfo : TokenInfo) (metadata : Bytes)
    (hcontent : update.ContentValue = some data)
    (hdecode : TokenInfo.UnmarshalJSON deps.unmarshalBigMap {} data = (tokenInfo, none))
    (hmarshal : deps.marshalStringMap tokenInfo.TokenInfo = .ok metadata) :
    (indexer.processTokenMetadata deps update).2 =
      .ok (some
        (match deps.ParseRequestURI tokenInfo.Link with
        | some _ =>
          { Network := indexer.network
            Contract := update.ContractAddress
            TokenID := tokenInfo.TokenID
            Status := .StatusApplied
            Metadata := deps.Escape metadata
            UpdateID := indexer.tokenActionsCounter.value + 1 }
        | none =>
          { Network := indexer.network
            Contract := update.ContractAddress
            TokenID := tokenInfo.TokenID
            Status := .StatusNew
            Metadata := deps.Escape metadata
            Link := tokenInfo.Link
            UpdateID := indexer.tokenActionsCounter.value + 1 })) := by
  unfold Indexer.processTokenMetadata
  simp only [hcontent, hdecode, hmarshal]
  cases deps.ParseRequestURI tokenInfo.Link <;>
    simp [helpers.Counter.Increment, Indexer.incrementCounter]

theorem payloadScenario_decodes :
    TokenInfo.UnmarshalJSON jsonUnmarshalBigMap {} payloadScenario =
      ({ TokenID := 1, TokenInfo := [(ascii "name", ascii "Token1")], Link := linkScenario },
        none) := by
  decide

theorem payloadKeyedByID_rejected :
    TokenInfo.UnmarshalJSON jsonUnmarshalBigMap {} payloadKeyedByID =
      ({}, some .strconvErrSyntax) := by
  decide

/-- C13: for a payload that decodes to `tokenInfo` (with a `json.Marshal` that does not fail on
the mapping and a `url.ParseRequestURI` that rejects the empty string),
`processTokenMetadata` produces a record with the decoded token id; its status
is `New` exactly when `url.ParseRequestURI` accepts the decoded link, and then
its link is the decoded link; otherwise, and in particular for an empty link,
its status is `Applied` and its link is empty. -/
theorem processTokenMetadata_status {V : Type} (deps : Deps V) (indexer : Indexer)
    (update : api.BigMapUpdate) (data : Bytes) (tokenInfo : TokenInfo)
    (hcontent : update.ContentValue = some data)
    (hdecode : TokenInfo.UnmarshalJSON deps.unmarshalBigMap {} data = (tokenInfo, none))
    (hmarshal : ∀ m, ∃ out, deps.marshalStringMap m = .ok out)
    (hempty : deps.ParseRequestURI [] ≠ none) :
    ∃ token, (indexer.processTokenMetadata deps update).2 = .ok (some token) ∧
      token.TokenID = tokenInfo.TokenID ∧
      (token.Status = .StatusNew ↔ deps.ParseRequestURI tokenInfo.Link = none) ∧
      (deps.ParseRequestURI tokenInfo.Link = none →
        token.Status = .StatusNew ∧ token.Link = tokenInfo.Link) ∧
      (deps.ParseRequestURI tokenInfo.Link ≠ none →
        token.Status = .StatusApplied ∧ token.Link = []) ∧
      (tokenInfo.Link = [] → token.Status = .StatusApplied ∧ token.Link = []) := by
  obtain ⟨metadata, hm⟩ := hmarshal tokenInfo.TokenInfo
  refine ⟨_, processTokenMetadata_of_decoded deps indexer update data tokenInfo metadata
    hcontent hdecode hm, ?_⟩
  cases huri : deps.ParseRequestURI tokenInfo.Link with
  | none =>
    refine ⟨rfl, by simp, fun _ => ⟨rfl, rfl⟩, fun h => absurd rfl h, ?_⟩
    intro hl
    rw [hl] at huri
    exact absurd huri hempty
  | some e =>
    refine ⟨rfl, by simp, fun h => (by cases h), fun _ => ⟨rfl, rfl⟩, fun _ => ⟨rfl, rfl⟩⟩

/-- C13, at the payload `payloadScenario`, whose link `https://example.com/1.json` is accepted:
the record has token id 1, status `New` and that link. -/
theorem processTokenMetadata_status_witness :
    ∃ token,
      (Indexer.processTokenMetadata (jsonDeps id url.ParseRequestURI) {}
        { ContentValue := some payloadScenario }).2 = .ok (some token) ∧
      token.TokenID = 1 ∧ token.Status = .StatusNew ∧ token.Link = linkScenario := by
  obtain ⟨token, h1, h2, -, h3, -⟩ :=
    processTokenMetadata_status (jsonDeps id url.ParseRequestURI) {}
      { ContentValue := some payloadScenario } payloadScenario
      { TokenID := 1, TokenInfo := [(ascii "name", ascii "Token1")], Link := linkScenario }
      rfl payloadScenario_decodes (fun m => ⟨_, rfl⟩) (by decide)
  exact ⟨token, h1, h2, (h3 (by decide)).1, (h3 (by decide)).2⟩

/-- C14 fails as stated: the payload `{"1": {"": "6874...6e", "name": "546f6b656e31"}}` has
no member `token_id`, so the token id read from it is the empty string;
`TokenInfo.UnmarshalJSON` returns the syntax error of `strconv.ParseUint` and
`processTokenMetadata` returns that error and no record. -/
theorem endToEnd_scenario_counterexample :
    jsonUnmarshalBigMap payloadKeyedByID = .ok { TokenID := [], TokenInfo := [] } ∧
      TokenInfo.UnmarshalJSON jsonUnmarshalBigMap {} payloadKeyedByID =
        ({}, some .strconvErrSyntax) ∧
      (Indexer.processTokenMetadata (jsonDeps id url.ParseRequestURI) {}
        { ContentValue := some payloadKeyedByID }).2 = .error .strconvErrSyntax := by
  refine ⟨by decide, payloadKeyedByID_rejected, ?_⟩
  unfold Indexer.processTokenMetadata
  simp only
  rw [show (jsonDeps id url.ParseRequestURI).unmarshalBigMap = jsonUnmarshalBigMap from rfl,
    payloadKeyedByID_rejected]

/-- C14, amended: the payload `{"token_id":"1","token_info":{"":"6874...6e","name":"546f6b656e31"}}`
decodes to token id 1, the link `https://example.com/1.json` and the mapping
`{"name": "Token1"}`, and the record constructed from it, whatever the
indexer, the contract and the escaping are, has token id 1, that link and the
status `New`. -/
theorem endToEnd_scenario (Escape : Bytes → Bytes) (indexer : Indexer) (contract : Bytes) :
    TokenInfo.UnmarshalJSON jsonUnmarshalBigMap {} payloadScenario =
        ({ TokenID := 1, TokenInfo := [(ascii "name", ascii "Token1")],
           Link := ascii "https://example.com/1.json" }, none) ∧
      ∃ token,
        (Indexer.processTokenMetadata (jsonDeps Escape url.ParseRequestURI) indexer
          { ContractAddress := contract, ContentValue := some payloadScenario }).2 =
            .ok (some token) ∧
        token.TokenID = 1 ∧ token.Link = ascii "https://example.com/1.json" ∧
        token.Status = .StatusNew := by
  refine ⟨payloadScenario_decodes, ?_⟩
  have h := processTokenMetadata_of_decoded (jsonDeps Escape url.ParseRequestURI) indexer
    { ContractAddress := contract, ContentValue := some payloadScenario } payloadScenario
    { TokenID := 1, TokenInfo := [(ascii "name", ascii "Token1")], Link := linkScenario }
    _ rfl payloadScenario_decodes rfl
  have huri0 : url.ParseRequestURI linkScenario = none := by decide
  have huri : (jsonDeps Escape url.ParseRequestURI).ParseRequestURI linkScenario = none :=
    huri0
  simp only [huri] at h
  exact ⟨_, h, rfl, rfl, rfl⟩

/-! ## Invariants of the state machine (claims C15 to C19) -/

theorem goInt_le (x : Int) (h : -2 ^ 63 ≤ x) : goInt x ≤ x := by
  unfold goInt
  omega

theorem resolveTokenMetadata_retryCount_cases {V : Type} (deps : Deps V) (indexer : Indexer)
    (resolved : Except resolver.Error Bytes) (tm : models.TokenMetadata) :
    (indexer.resolveTokenMetadata deps resolved tm).2.1.RetryCount = tm.RetryCount ∨
      (indexer.resolveTokenMetadata deps resolved tm).2.1.RetryCount =
        goInt (tm.RetryCount + 1) := by
  cases resolved with
  | error err =>
    rw [(resolveTokenMetadata_error deps indexer tm err).1]
    unfold afterError
    split
    · split <;> exact Or.inr rfl
    · exact Or.inl rfl
  | ok data =>
    cases hmerge : mergeTokenMetadata deps tm.Metadata data with
    | panicked =>
      rw [resolveTokenMetadata_merge_panics deps indexer tm data hmerge]
      exact Or.inl rfl
    | error err =>
      rw [resolveTokenMetadata_merge_error deps indexer tm data err hmerge]
      exact Or.inl rfl
    | ok metadata =>
      rw [(resolveTokenMetadata_merged deps indexer tm data metadata hmerge).1]
      split <;> exact Or.inl rfl

theorem resolveTokenMetadata_transient_retryCount {V : Type} (deps : Deps V)
    (indexer : Indexer) (tm : models.TokenMetadata) (err : resolver.Error)
    (herr : err.isErrNoIPFSResponse = true ∨ err.isErrTezosStorageKeyNotFound = true) :
    (indexer.resolveTokenMetadata deps (.error err) tm).2.1.RetryCount =
      goInt (tm.RetryCount + 1) := by
  rw [(resolveTokenMetadata_error deps indexer tm err).1]
  unfold afterError
  rw [if_pos herr]
  split <;> rfl

theorem runAttempts_append {V : Type} (deps : Deps V) (indexer : Indexer)
    (tm : models.TokenMetadata) (pre post : List (Except resolver.Error Bytes)) :
    runAttempts deps indexer tm (pre ++ post) =
      runAttempts deps (runAttempts deps indexer tm pre).1 (runAttempts deps indexer tm pre).2
        post := by
  induction pre generalizing indexer tm with
  | nil => rfl
  | cons resolved rest ih =>
    exact ih (indexer.resolveTokenMetadata deps resolved tm).1
      (indexer.resolveTokenMetadata deps resolved tm).2.1

theorem runAttempts_retryCount_range {V : Type} (deps : Deps V) (indexer : Indexer)
    (tm : models.TokenMetadata) (outcomes : List (Except resolver.Error Bytes))
    (hlo : -2 ^ 63 ≤ tm.RetryCount) (hhi : tm.RetryCount + outcomes.length < 2 ^ 63) :
    tm.RetryCount ≤ (runAttempts deps indexer tm outcomes).2.RetryCount ∧
      (runAttempts deps indexer tm outcomes).2.RetryCount ≤
        tm.RetryCount + outcomes.length := by
  induction outcomes generalizing indexer tm with
  | nil =>
    unfold runAttempts
    simp
  | cons resolved rest ih =>
    unfold runAttempts
    rw [List.length_cons] at hhi
    push_cast at hhi
    have hstep : tm.RetryCount ≤ (indexer.resolveTokenMetadata deps resolved tm).2.1.RetryCount ∧
        (indexer.resolveTokenMetadata deps resolved tm).2.1.RetryCount ≤ tm.RetryCount + 1 := by
      rcases resolveTokenMetadata_retryCount_cases deps indexer resolved tm with h | h
      · rw [h]; omega
      · rw [h, goInt_eq _ (by omega) (by omega)]; omega
    have := ih (indexer.resolveTokenMetadata deps resolved tm).1
      (indexer.resolveTokenMetadata deps resolved tm).2.1 (by omega) (by omega)
    rw [List.length_cons]
    push_cast
    omega

theorem runAttempts_replicate_transient {V : Type} (deps : Deps V) (err : resolver.Error)
    (herr : err.isErrNoIPFSResponse = true ∨ err.isErrTezosStorageKeyNotFound = true)
    (n : Nat) (indexer : Indexer) (tm : models.TokenMetadata)
    (hlo : -2 ^ 63 ≤ tm.RetryCount) (hhi : tm.RetryCount < 2 ^ 63) :
    (runAttempts deps indexer tm (List.replicate n (.error err))).2.RetryCount =
      goInt (tm.RetryCount + n) := by
  induction n generalizing indexer tm with
  | zero =>
    rw [List.replicate_zero]
    unfold runAttempts
    simp only [Nat.cast_zero, add_zero]
    exact (goInt_eq _ hlo hhi).symm
  | succ n ih =>
    rw [List.replicate_succ]
    unfold runAttempts
    rw [ih _ _ (by rw [resolveTokenMetadata_transient_retryCount deps indexer tm err herr]
                   exact (goInt_range _).1)
      (by rw [resolveTokenMetadata_transient_retryCount deps indexer tm err herr]
          exact (goInt_range _).2),
      resolveTokenMetadata_transient_retryCount deps indexer tm err herr, goInt_goInt_add]
    congr 1
    push_cast
    omega

theorem resolveTokenMetadata_bound_step {V : Type} (deps : Deps V) (indexer : Indexer)
    (resolved : Except resolver.Error Bytes) (tm : models.TokenMetadata)
    (hlo : -2 ^ 63 ≤ tm.RetryCount)
    (hlt : tm.RetryCount < indexer.MaxRetryCountOnError) :
    -2 ^ 63 ≤ (indexer.resolveTokenMetadata deps resolved tm).2.1.RetryCount ∧
      (indexer.resolveTokenMetadata deps resolved tm).2.1.RetryCount ≤
        indexer.MaxRetryCountOnError ∧
      ((indexer.resolveTokenMetadata deps resolved tm).2.1.Status ≠ .StatusFailed →
        (indexer.resolveTokenMetadata deps resolved tm).2.1.RetryCount <
          indexer.MaxRetryCountOnError) := by
  have hg := goInt_le (tm.RetryCount + 1) (by omega)
  have hr := goInt_range (tm.RetryCount + 1)
  cases resolved with
  | error err =>
    rw [(resolveTokenMetadata_error deps indexer tm err).1]
    unfold afterError
    split
    · split
      · next h => exact ⟨hr.1, Int.le_of_lt h, fun _ => h⟩
      · exact ⟨hr.1, by show goInt (tm.RetryCount + 1) ≤ _; omega, fun h => absurd rfl h⟩
    · exact ⟨hlo, Int.le_of_lt hlt, fun h => absurd rfl h⟩
  | ok data =>
    cases hmerge : mergeTokenMetadata deps tm.Metadata data with
    | panicked =>
      rw [resolveTokenMetadata_merge_panics deps indexer tm data hmerge]
      exact ⟨hlo, Int.le_of_lt hlt, fun _ => hlt⟩
    | error err =>
      rw [resolveTokenMetadata_merge_error deps indexer tm data err hmerge]
      exact ⟨hlo, Int.le_of_lt hlt, fun _ => hlt⟩
    | ok metadata =>
      rw [(resolveTokenMetadata_merged deps indexer tm data metadata hmerge).1]
      split
      · exact ⟨hlo, Int.le_of_lt hlt, fun _ => hlt⟩
      · exact ⟨hlo, Int.le_of_lt hlt, fun _ => hlt⟩

theorem runAttemptsUnlessFailed_bound {V : Type} (deps : Deps V) (indexer : Indexer)
    (tm : models.TokenMetadata) (outcomes : List (Except resolver.Error Bytes))
    (hlo : -2 ^ 63 ≤ tm.RetryCount)
    (hle : tm.RetryCount ≤ indexer.MaxRetryCountOnError)
    (hnew : tm.Status ≠ .StatusFailed → tm.RetryCount < indexer.MaxRetryCountOnError) :
    (runAttemptsUnlessFailed deps indexer tm outcomes).2.RetryCount ≤
      indexer.MaxRetryCountOnError := by
  induction outcomes generalizing indexer tm with
  | nil => exact hle
  | cons resolved rest ih =>
    unfold runAttemptsUnlessFailed
    by_cases hs : tm.Status = .StatusFailed
    · rw [if_pos hs]
      exact hle
    · rw [if_neg hs]
      have hstep := resolveTokenMetadata_bound_step deps indexer resolved tm hlo (hnew hs)
      have hmax := (resolveTokenMetadata_indexer deps indexer resolved tm).2.1
      have := ih (indexer.resolveTokenMetadata deps resolved tm).1
        (indexer.resolveTokenMetadata deps resolved tm).2.1 hstep.1
        (by rw [hmax]; exact hstep.2.1) (by rw [hmax]; exact hstep.2.2)
      rw [hmax] at this
      exact this

/-- C15 fails as stated, in three ways.  With maximum 3 and a record with retry count 0, four
transient errors in a row leave the retry count 4.  With maximum 0, one
transient error on a `New` record with retry count 0 leaves the retry count 1,
also when no attempt is made on a `Failed` record.  And `RetryCount` is a Go
`int`: from retry count 0, `2^63 - 1` transient errors in a row leave the
retry count `2^63 - 1`, and one more leaves it `-2^63`, which is a decrease. -/
theorem retryCount_bound_counterexample :
    ((runAttempts (jsonDeps id url.ParseRequestURI) { MaxRetryCountOnError := 3 } {}
      [.error { isErrNoIPFSResponse := true }, .error { isErrNoIPFSResponse := true },
        .error { isErrNoIPFSResponse := true },
        .error { isErrNoIPFSResponse := true }]).2.RetryCount = 4 ∧
      ¬ ((runAttempts (jsonDeps id url.ParseRequestURI) { MaxRetryCountOnError := 3 } {}
        [.error { isErrNoIPFSResponse := true }, .error { isErrNoIPFSResponse := true },
          .error { isErrNoIPFSResponse := true },
          .error { isErrNoIPFSResponse := true }]).2.RetryCount ≤ 3)) ∧
    ((runAttemptsUnlessFailed (jsonDeps id url.ParseRequestURI) { MaxRetryCountOnError := 0 }
        { Status := .StatusNew, RetryCount := 0 }
        [.error { isErrNoIPFSResponse := true }]).2.RetryCount = 1 ∧
      ¬ ((runAttemptsUnlessFailed (jsonDeps id url.ParseRequestURI)
        { MaxRetryCountOnError := 0 } { Status := .StatusNew, RetryCount := 0 }
        [.error { isErrNoIPFSResponse := true }]).2.RetryCount ≤ 0)) ∧
    ((runAttempts (jsonDeps id url.ParseRequestURI) { MaxRetryCountOnError := 3 }
        { RetryCount := 0 }
        (List.replicate 9223372036854775807
          (.error { isErrNoIPFSResponse := true }))).2.RetryCount = 9223372036854775807 ∧
      (runAttempts (jsonDeps id url.ParseRequestURI) { MaxRetryCountOnError := 3 }
        { RetryCount := 0 }
        (List.replicate 9223372036854775808
          (.error { isErrNoIPFSResponse := true }))).2.RetryCount = -9223372036854775808) := by
  refine ⟨?_, ?_, ?_, ?_⟩
  · set_option maxRecDepth 8192 in decide
  · set_option maxRecDepth 8192 in decide
  · rw [runAttempts_replicate_transient _ _ (Or.inl rfl) _ _ _ (by decide) (by decide)]
    decide
  · rw [runAttempts_replicate_transient _ _ (Or.inl rfl) _ _ _ (by decide) (by decide)]
    decide

/-- C15, amended: starting from a record with retry count 0 and applying a sequence of fewer
than `2^63` resolution attempts with arbitrary resolver outcomes, the retry
count never decreases: after any first part of the sequence it is at least 0
and at most what it is after the whole sequence.  And when no attempt is made
on a record whose status is `Failed`, then starting from a record with retry
count 0, whatever its status, under a configured maximum of at least 1, the
retry count stays at most the maximum after any sequence of attempts. -/
theorem retryCount_bound {V : Type} (deps : Deps V) (indexer : Indexer)
    (tm : models.TokenMetadata) (pre post : List (Except resolver.Error Bytes))
    (hzero : tm.RetryCount = 0) :
    (((pre ++ post).length : Int) < 2 ^ 63 →
      0 ≤ (runAttempts deps indexer tm pre).2.RetryCount ∧
        (runAttempts deps indexer tm pre).2.RetryCount ≤
          (runAttempts deps indexer tm (pre ++ post)).2.RetryCount) ∧
      (1 ≤ indexer.MaxRetryCountOnError →
        (runAttemptsUnlessFailed deps indexer tm pre).2.RetryCount ≤
          indexer.MaxRetryCountOnError) := by
  constructor
  · intro hlen
    rw [List.length_append] at hlen
    push_cast at hlen
    have hpre := runAttempts_retryCount_range deps indexer tm pre (by omega) (by omega)
    rw [hzero] at hpre
    have hpost := runAttempts_retryCount_range deps (runAttempts deps indexer tm pre).1
      (runAttempts deps indexer tm pre).2 post (by omega) (by omega)
    rw [runAttempts_append]
    exact ⟨hpre.1, hpost.1⟩
  · intro hmax
    apply runAttemptsUnlessFailed_bound
    · omega
    · omega
    · intro _
      omega

/-- C15 amended, at maximum 3 and four transient errors offered to a record with retry count
0: run without a stop the retry count is 2 after two of them and 4 after all
four; when no attempt is made on a `Failed` record the fourth is not attempted
and the retry count is at most 3. -/
theorem retryCount_bound_witness :
    ((runAttempts (jsonDeps id url.ParseRequestURI) { MaxRetryCountOnError := 3 } {}
        [.error { isErrNoIPFSResponse := true },
          .error { isErrNoIPFSResponse := true }]).2.RetryCount ≤
      (runAttempts (jsonDeps id url.ParseRequestURI) { MaxRetryCountOnError := 3 } {}
        ([.error { isErrNoIPFSResponse := true }, .error { isErrNoIPFSResponse := true }] ++
          [.error { isErrNoIPFSResponse := true },
            .error { isErrNoIPFSResponse := true }])).2.RetryCount) ∧
    (runAttemptsUnlessFailed (jsonDeps id url.ParseRequestURI) { MaxRetryCountOnError := 3 } {}
      [.error { isErrNoIPFSResponse := true }, .error { isErrNoIPFSResponse := true },
        .error { isErrNoIPFSResponse := true },
        .error { isErrNoIPFSResponse := true }]).2.RetryCount ≤ 3 :=
  ⟨((retryCount_bound (jsonDeps id url.ParseRequestURI) { MaxRetryCountOnError := 3 } {}
      [.error { isErrNoIPFSResponse := true }, .error { isErrNoIPFSResponse := true }]
      [.error { isErrNoIPFSResponse := true }, .error { isErrNoIPFSResponse := true }]
      rfl).1 (by decide)).2,
    (retryCount_bound (jsonDeps id url.ParseRequestURI) { MaxRetryCountOnError := 3 } {}
      [.error { isErrNoIPFSResponse := true }, .error { isErrNoIPFSResponse := true },
        .error { isErrNoIPFSResponse := true }, .error { isErrNoIPFSResponse := true }]
      [] rfl).2 (by decide)⟩

/-- C16: every resolution attempt that returns no error (transient error, other error,
applied success, invalid-text success) performs exactly one increment of the
update-id counter and stamps the record with the value that increment returns;
that value exceeds the counter's value before the attempt, so it is strictly
greater than an update id the counter issued earlier. -/
theorem resolveTokenMetadata_updateID {V : Type} (deps : Deps V) (indexer : Indexer)
    (resolved : Except resolver.Error Bytes) (tm : models.TokenMetadata)
    (hok : (indexer.resolveTokenMetadata deps resolved tm).2.2 = .returned none) :
    (indexer.resolveTokenMetadata deps resolved tm).1.tokenActionsCounter =
        indexer.tokenActionsCounter.Increment.1 ∧
      (indexer.resolveTokenMetadata deps resolved tm).2.1.UpdateID =
        indexer.tokenActionsCounter.Increment.2 ∧
      indexer.tokenActionsCounter.value < indexer.tokenActionsCounter.Increment.2 ∧
      (tm.UpdateID ≤ indexer.tokenActionsCounter.value →
        tm.UpdateID < (indexer.resolveTokenMetadata deps resolved tm).2.1.UpdateID) := by
  obtain ⟨hc, hu⟩ := (resolveTokenMetadata_indexer deps indexer resolved tm).2.2.2.1 hok
  refine ⟨?_, hu, ?_, ?_⟩
  · cases hcnt : (indexer.resolveTokenMetadata deps resolved tm).1.tokenActionsCounter with
    | mk v =>
      rw [hcnt] at hc
      simp only at hc
      simp [helpers.Counter.Increment, hc]
  · simp [helpers.Counter.Increment]
  · intro hle
    rw [hu]
    omega

/-- C16, at a record stamped 5 by a counter that stands at 7 and an unclassified error: the
attempt succeeds, the counter stands at 8 and the record is stamped 8. -/
theorem resolveTokenMetadata_updateID_witness :
    (Indexer.resolveTokenMetadata (jsonDeps id url.ParseRequestURI)
        { tokenActionsCounter := { value := 7 } } (.error {}) { UpdateID := 5 }).1.tokenActionsCounter
        = { value := 8 } ∧
      (Indexer.resolveTokenMetadata (jsonDeps id url.ParseRequestURI)
        { tokenActionsCounter := { value := 7 } } (.error {}) { UpdateID := 5 }).2.1.UpdateID = 8 ∧
      (5 : Int) < (Indexer.resolveTokenMetadata (jsonDeps id url.ParseRequestURI)
        { tokenActionsCounter := { value := 7 } } (.error {}) { UpdateID := 5 }).2.1.UpdateID :=
  have h := resolveTokenMetadata_updateID (jsonDeps id url.ParseRequestURI)
    { tokenActionsCounter := { value := 7 } } (.error {}) { UpdateID := 5 } (by decide)
  ⟨h.1, h.2.1, h.2.2.2 (by decide)⟩

/-- C17 fails as stated: an `Applied` record whose resolution ends in an unclassified error
has the status `Failed` afterwards. -/
theorem applied_terminal_counterexample :
    (Indexer.resolveTokenMetadata (jsonDeps id url.ParseRequestURI) {} (.error {})
      { Status := .StatusApplied }).2.1.Status = .StatusFailed := by
  decide

/-- C17, amended: `resolveTokenMetadata` does not look at the status before the attempt.  An
`Applied` record stays `Applied` after a success whose merged document is
valid UTF-8, after a merge that fails or panics, and after a transient error
whose incremented retry count (a Go `int`) is below the maximum; it becomes
`Failed` after a success whose merged document is not valid UTF-8, after a
transient error that reaches the maximum, and after any other error. -/
theorem applied_status_after {V : Type} (deps : Deps V) (indexer : Indexer)
    (tm : models.TokenMetadata) (happlied : tm.Status = .StatusApplied) :
    (∀ err : resolver.Error,
      (indexer.resolveTokenMetadata deps (.error err) tm).2.1.Status =
        if (err.isErrNoIPFSResponse = true ∨ err.isErrTezosStorageKeyNotFound = true) ∧
            goInt (tm.RetryCount + 1) < indexer.MaxRetryCountOnError then .StatusApplied
        else .StatusFailed) ∧
    (∀ data : Bytes,
      (indexer.resolveTokenMetadata deps (.ok data) tm).2.1.Status =
        match mergeTokenMetadata deps tm.Metadata data with
        | .panicked => .StatusApplied
        | .error _ => .StatusApplied
        | .ok metadata => if Valid metadata = true then .StatusApplied else .StatusFailed) := by
  constructor
  · intro err
    rw [(resolveTokenMetadata_error deps indexer tm err).1]
    unfold afterError
    by_cases ht : err.isErrNoIPFSResponse = true ∨ err.isErrTezosStorageKeyNotFound = true
    · by_cases hlt : goInt (tm.RetryCount + 1) < indexer.MaxRetryCountOnError
      · rw [if_pos ht, if_pos hlt, if_pos ⟨ht, hlt⟩]
        exact happlied
      · rw [if_pos ht, if_neg hlt, if_neg (fun h => hlt h.2)]
    · rw [if_neg ht, if_neg (fun h => ht h.1)]
  · intro data
    cases hmerge : mergeTokenMetadata deps tm.Metadata data with
    | panicked =>
      rw [resolveTokenMetadata_merge_panics deps indexer tm data hmerge]
      exact happlied
    | error err =>
      rw [resolveTokenMetadata_merge_error deps indexer tm data err hmerge]
      exact happlied
    | ok metadata =>
      rw [(resolveTokenMetadata_merged deps indexer tm data metadata hmerge).1]
      by_cases hv : Valid metadata = true
      · simp [hv]
      · simp [hv]

/-- C17 amended, at an `Applied` record holding `{"a":"x"}` and the resolved document
`{"b":"y","a":"z"}`: the status is still `Applied`. -/
theorem applied_status_after_witness :
    (Indexer.resolveTokenMetadata (jsonDeps id url.ParseRequestURI) {} (.ok docB)
      { Status := .StatusApplied, Metadata := docA }).2.1.Status = .StatusApplied := by
  have h := (applied_status_after (jsonDeps id url.ParseRequestURI) {}
    { Status := .StatusApplied, Metadata := docA } rfl).2 docB
  rw [h]
  decide

/-- C18: for every resolver outcome the record after `resolveTokenMetadata` is the record
before it with at most `Status`, `Metadata`, `RetryCount` and `UpdateID`
replaced: `Network`, `Contract`, `TokenID` and `Link` are unchanged.  When the
attempt returns no error, `tokenWorker` makes one call of
`db.UpdateTokenMetadata`, for that record, and the fields it hands over are
exactly `status`, `metadata`, `retry_count` and `update_id` with the values the
record has after the attempt. -/
theorem resolveTokenMetadata_frame_fields {V : Type} (deps : Deps V) (indexer : Indexer)
    (resolved : Except resolver.Error Bytes) (dbErr : Option GoError)
    (tm : models.TokenMetadata) :
    (indexer.resolveTokenMetadata deps resolved tm).2.1 =
        { tm with
          Status := (indexer.resolveTokenMetadata deps resolved tm).2.1.Status
          Metadata := (indexer.resolveTokenMetadata deps resolved tm).2.1.Metadata
          RetryCount := (indexer.resolveTokenMetadata deps resolved tm).2.1.RetryCount
          UpdateID := (indexer.resolveTokenMetadata deps resolved tm).2.1.UpdateID } ∧
      ((indexer.resolveTokenMetadata deps resolved tm).2.1.Network = tm.Network ∧
        (indexer.resolveTokenMetadata deps resolved tm).2.1.Contract = tm.Contract ∧
        (indexer.resolveTokenMetadata deps resolved tm).2.1.TokenID = tm.TokenID ∧
        (indexer.resolveTokenMetadata deps resolved tm).2.1.Link = tm.Link) ∧
      ((indexer.resolveTokenMetadata deps resolved tm).2.2 = .returned none →
        (indexer.tokenWorker deps resolved dbErr tm).2 = .returned dbErr ∧
        (indexer.tokenWorker deps resolved dbErr tm).1.dbUpdates =
          indexer.dbUpdates ++
            [((indexer.resolveTokenMetadata deps resolved tm).2.1,
              [(ascii "status",
                  .status (indexer.resolveTokenMetadata deps resolved tm).2.1.Status),
               (ascii "metadata",
                  .bytes (indexer.resolveTokenMetadata deps resolved tm).2.1.Metadata),
               (ascii "retry_count",
                  .int (indexer.resolveTokenMetadata deps resolved tm).2.1.RetryCount),
               (ascii "update_id",
                  .int (indexer.resolveTokenMetadata deps resolved tm).2.1.UpdateID)])]) := by
  have hf := resolveTokenMetadata_frame deps indexer resolved tm
  refine ⟨?_, hf, ?_⟩
  · cases hr : (indexer.resolveTokenMetadata deps resolved tm).2.1 with
    | mk n c t s m l r u =>
      rw [hr] at hf
      obtain ⟨h1, h2, h3, h4⟩ := hf
      simp only at h1 h2 h3 h4
      subst h1 h2 h3 h4
      rfl
  · intro hok
    rw [tokenWorker_of_success deps indexer resolved dbErr tm hok]
    exact ⟨rfl, by rw [(resolveTokenMetadata_indexer deps indexer resolved tm).2.2.1]⟩

/-- C18, at a `New` record of token 7 with a link and the error "no IPFS response" under
maximum 3: token id and link are unchanged and the worker hands over the four
fields, the retry count 1 among them. -/
theorem resolveTokenMetadata_frame_fields_witness :
    (Indexer.resolveTokenMetadata (jsonDeps id url.ParseRequestURI)
        { MaxRetryCountOnError := 3 } (.error { isErrNoIPFSResponse := true })
        { TokenID := 7, Link := linkScenario }).2.1.Link = linkScenario ∧
      (Indexer.tokenWorker (jsonDeps id url.ParseRequestURI)
        { MaxRetryCountOnError := 3 } (.error { isErrNoIPFSResponse := true }) none
        { TokenID := 7, Link := linkScenario }).1.dbUpdates =
        [({ TokenID := 7, Link := linkScenario, RetryCount := 1, UpdateID := 1 },
          [(ascii "status", .status .StatusNew), (ascii "metadata", .bytes []),
            (ascii "retry_count", .int 1), (ascii "update_id", .int 1)])] := by
  have h := resolveTokenMetadata_frame_fields (jsonDeps id url.ParseRequestURI)
    { MaxRetryCountOnError := 3 } (.error { isErrNoIPFSResponse := true }) none
    { TokenID := 7, Link := linkScenario }
  refine ⟨h.2.1.2.2.2, ?_⟩
  rw [(h.2.2 (by decide)).2]
  decide

/-- C19 fails as stated: a `New` record whose stored metadata `x` is no JSON document and a
resolver that succeeds with `{"a":"x"}`: the merge fails, the attempt returns
the error, and the status after the attempt is `New` although the outcome was
no transient error.  The same holds of a `New` record whose stored metadata is
`null`: the merge panics and the record is left as it was. -/
theorem new_after_attempt_counterexample :
    ((Indexer.resolveTokenMetadata (jsonDeps id url.ParseRequestURI) {} (.ok docA)
        { Status := .StatusNew, Metadata := docMalformed }).2.1.Status = .StatusNew ∧
      (Indexer.resolveTokenMetadata (jsonDeps id url.ParseRequestURI) {} (.ok docA)
        { Status := .StatusNew, Metadata := docMalformed }).2.2 =
          .returned (some .jsonError)) ∧
    ((Indexer.resolveTokenMetadata (jsonDeps id url.ParseRequestURI) {} (.ok docA)
        { Status := .StatusNew, Metadata := docNull }).2.1.Status = .StatusNew ∧
      (Indexer.resolveTokenMetadata (jsonDeps id url.ParseRequestURI) {} (.ok docA)
        { Status := .StatusNew, Metadata := docNull }).2.2 = .panicked) := by
  decide

/-- C19, amended: if the status after `resolveTokenMetadata` is `New` then the status
before it was `New`, and either the outcome was a transient error and the
incremented retry count (a Go `int`) is below the configured maximum, or the
resolver succeeded and the merge failed, in which case the attempt returned
the error and left the record as it was, or the resolver succeeded and the
merge panicked, which also left the record as it was. -/
theorem new_after_attempt {V : Type} (deps : Deps V) (indexer : Indexer)
    (resolved : Except resolver.Error Bytes) (tm : models.TokenMetadata)
    (hnew : (indexer.resolveTokenMetadata deps resolved tm).2.1.Status = .StatusNew) :
    tm.Status = .StatusNew ∧
      ((∃ err, resolved = .error err ∧
          (err.isErrNoIPFSResponse = true ∨ err.isErrTezosStorageKeyNotFound = true) ∧
          goInt (tm.RetryCount + 1) < indexer.MaxRetryCountOnError ∧
          (indexer.resolveTokenMetadata deps resolved tm).2.2 = .returned none) ∨
        (∃ data err, resolved = .ok data ∧
          mergeTokenMetadata deps tm.Metadata data = .error err ∧
          (indexer.resolveTokenMetadata deps resolved tm).2.2 = .returned (some err) ∧
          (indexer.resolveTokenMetadata deps resolved tm).2.1 = tm) ∨
        (∃ data, resolved = .ok data ∧
          mergeTokenMetadata deps tm.Metadata data = .panicked ∧
          (indexer.resolveTokenMetadata deps resolved tm).2.2 = .panicked ∧
          (indexer.resolveTokenMetadata deps resolved tm).2.1 = tm)) := by
  cases resolved with
  | error err =>
    obtain ⟨h1, h2, -⟩ := resolveTokenMetadata_error deps indexer tm err
    rw [h1] at hnew
    unfold afterError at hnew
    by_cases ht : err.isErrNoIPFSResponse = true ∨ err.isErrTezosStorageKeyNotFound = true
    · by_cases hlt : goInt (tm.RetryCount + 1) < indexer.MaxRetryCountOnError
      · rw [if_pos ht, if_pos hlt] at hnew
        exact ⟨hnew, Or.inl ⟨err, rfl, ht, hlt, h2⟩⟩
      · rw [if_pos ht, if_neg hlt] at hnew
        cases hnew
    · rw [if_neg ht] at hnew
      cases hnew
  | ok data =>
    cases hmerge : mergeTokenMetadata deps tm.Metadata data with
    | panicked =>
      have hr := resolveTokenMetadata_merge_panics deps indexer tm data hmerge
      rw [hr] at hnew
      exact ⟨hnew, Or.inr (Or.inr ⟨data, rfl, hmerge, by rw [hr], by rw [hr]⟩)⟩
    | error err =>
      have hr := resolveTokenMetadata_merge_error deps indexer tm data err hmerge
      rw [hr] at hnew
      exact ⟨hnew, Or.inr (Or.inl ⟨data, err, rfl, hmerge, by rw [hr], by rw [hr]⟩)⟩
    | ok metadata =>
      rw [(resolveTokenMetadata_merged deps indexer tm data metadata hmerge).1] at hnew
      by_cases hv : Valid metadata = true
      · rw [if_pos hv] at hnew
        cases hnew
      · rw [if_neg hv] at hnew
        cases hnew

/-- C19 amended, at a `New` record with retry count 0 and the error "no IPFS response" under
maximum 3: the status after the attempt is `New`, and so it was before. -/
theorem new_after_attempt_witness :
    (Indexer.resolveTokenMetadata (jsonDeps id url.ParseRequestURI)
        { MaxRetryCountOnError := 3 } (.error { isErrNoIPFSResponse := true })
        {}).2.1.Status = .StatusNew ∧
      ({} : models.TokenMetadata).Status = .StatusNew :=
  ⟨by decide,
    (new_after_attempt (jsonDeps id url.ParseRequestURI) { MaxRetryCountOnError := 3 }
      (.error { isErrNoIPFSResponse := true }) {} (by decide)).1⟩

end MetadataIndexer
